import Mathlib

/-!
# httpserver2.c : a one-shot HTTP/1.x server, embedded in Lean

The C program reads one request from `stdin`, answers it on `stdout` and exits.
This file translates its functions one by one.

Conventions of the embedding.

* A byte is a `Nat` (meaningful below 256), a C string is a `List Nat` without
  the terminating NUL.  Where the source applies a string function to a buffer
  that may hold a NUL read from the input, the embedding first cuts the buffer
  at the first NUL (`c_str`).
* `FILE *in` is the list of bytes still to be read; a reading function returns
  what is left.  `FILE *out` is the list of bytes written; a writing function
  returns the bytes it appends.  `exit` flushes `stdout`, so what was written
  before a fatal error is still part of the output.
* `err_log` prints to `stderr` and calls `exit(1)`.  It never returns: every
  call site is a value of `Fatal`, and the function that reaches it stops.
* The filesystem and the clock are the record `Sys`: what `lstat` answers, what
  `open` followed by `read` delivers, and the text `strftime` produces.
* Not modelled: failure of `malloc`, of `gmtime`, of `read` on an open
  descriptor, of `fwrite`, and signals.  The `free` calls have no counterpart.
* `int` is 32 bits, `long` is 64 bits (LP64), and `atoi` is the C library's
  `(int) strtol(s, NULL, 10)`.
-/

namespace Httpserver2

/-! ## Bytes and constants -/

/-- The bytes of a string literal of the source. -/
def bytes (s : String) : List Nat := s.toList.map Char.toNat

def SERVER_NAME : List Nat := bytes "sysproHTTP"

def SERVER_VERSION : List Nat := bytes "1.0"

def HTTP_MINOR_VERSION : Nat := 0

def BLOCK_BUF_SIZE : Nat := 1024

def LINE_BUF_SIZE : Nat := 4096

def MAX_REQUEST_BODY_LENGTH : Int := 1024 * 1024

/-! ## Data model -/

/-- One node of the header list (`struct HTTPheader`); `next` is the list tail. -/
structure HTTPheader where
  name : List Nat
  value : List Nat
  deriving DecidableEq, Repr

/-- The parsed request (`struct HTTPreq`).  `body = none` is the NULL pointer. -/
structure HTTPreq where
  protocol_minor_version : Int
  method : List Nat
  path : List Nat
  header : List HTTPheader
  body : Option (List Nat)
  length : Int
  deriving DecidableEq, Repr

/-- The resolved file (`struct FileInfo`).  The source leaves `size`
uninitialised when `ok` is 0 and never reads it then; it is 0 here. -/
structure FileInfo where
  path : List Nat
  size : Int
  ok : Bool
  deriving DecidableEq, Repr

/-- The call sites of `err_log` that the input or the filesystem can reach. -/
inductive Fatal where
  /-- line 167: no request line -/
  | no_request_line
  /-- line 170: no blank after the method -/
  | request_line_1
  /-- line 179: no blank after the path -/
  | request_line_2
  /-- line 185: the protocol does not start with HTTP/1. -/
  | request_line_3
  /-- line 196: end of input while reading a header line -/
  | header_read
  /-- line 201: a header line without a colon -/
  | header_no_colon
  /-- line 231: negative Content-Length -/
  | negative_content_length
  /-- line 135: body larger than the cap -/
  | body_too_large
  /-- line 138: fewer body bytes than declared -/
  | body_read
  /-- line 300: the file cannot be opened -/
  | open_failed
  deriving DecidableEq, Repr

/-- What `S_ISREG` and its siblings tell about `st_mode`. -/
inductive FileKind where
  | regular
  | directory
  | symlink
  | other
  deriving DecidableEq, Repr

/-- The two fields of `struct stat` the program reads. -/
structure Stat where
  st_mode : FileKind
  st_size : Int
  deriving DecidableEq, Repr

/-- The world outside the process.
`lstat p = none` is `lstat() < 0`; `open_read p = none` is `open() < 0`, and
`open_read p = some c` means the descriptor delivers the bytes `c` and then
end of file; `date` is the buffer filled by `strftime` from `time(NULL)`. -/
structure Sys where
  lstat : List Nat → Option Stat
  open_read : List Nat → Option (List Nat)
  date : List Nat

/-- What one run leaves behind: the bytes on `stdout`, and the `err_log` call
that ended it, if any. -/
structure Outcome where
  out : List Nat
  fatal : Option Fatal
  deriving DecidableEq, Repr

/-! ## C library -/

/-- The string held by a buffer: its bytes up to the first NUL. -/
def c_str (buf : List Nat) : List Nat := buf.takeWhile (fun c => c != 0)

/-- `toupper` in the C locale. -/
def toupper (c : Nat) : Nat := if 97 ≤ c ∧ c ≤ 122 then c - 32 else c

/-- `tolower` in the C locale. -/
def tolower (c : Nat) : Nat := if 65 ≤ c ∧ c ≤ 90 then c + 32 else c

/-- `islower` in the C locale. -/
def islower (c : Nat) : Bool := 97 ≤ c && c ≤ 122

/-- `isspace` in the C locale: blank, and `\t \n \v \f \r`. -/
def isspace (c : Nat) : Bool := c == 32 || (9 ≤ c && c ≤ 13)

/-- `isdigit`. -/
def isdigit (c : Nat) : Bool := 48 ≤ c && c ≤ 57

/-- `strcmp(a, b) == 0`. -/
def strcmp_eq (a b : List Nat) : Bool := a == b

/-- `strcasecmp(a, b) == 0`: equal after folding case byte by byte. -/
def strcasecmp_eq (a b : List Nat) : Bool := a.map tolower == b.map tolower

/-- `strncasecmp(a, b, n) == 0`: the first `n` bytes of the two strings (all of
a string shorter than `n`) are equal up to case. -/
def strncasecmp_eq (a b : List Nat) (n : Nat) : Bool :=
  (a.take n).map tolower == (b.take n).map tolower

/-- `strchr(s, c)` followed by `*p++ = 0`: the string before the first `c`
and the string after it, or `none` when `strchr` returns NULL. -/
def strchr (s : List Nat) (c : Nat) : Option (List Nat × List Nat) :=
  match s with
  | [] => none
  | x :: xs =>
      if x = c then some ([], xs)
      else
        match strchr xs c with
        | none => none
        | some (before, after) => some (x :: before, after)

/-- `p += strspn(p, " \t")`. -/
def skip_blanks (p : List Nat) : List Nat := p.dropWhile (fun c => c == 32 || c == 9)

/-- The value of the leading decimal digits of `s`, continuing from `acc`. -/
def digits_value (acc : Nat) (s : List Nat) : Nat :=
  match s with
  | [] => acc
  | c :: cs => if isdigit c then digits_value (acc * 10 + (c - 48)) cs else acc

/-- `strtol(s, NULL, 10)`: white space, an optional sign, digits; a value out
of the range of `long` is clamped. -/
def strtol (s : List Nat) : Int :=
  match s.dropWhile isspace with
  | [] => 0
  | c :: cs =>
      if c = 45 then max (-(2 ^ 63)) (-(digits_value 0 cs : Int))
      else if c = 43 then min (2 ^ 63 - 1) (digits_value 0 cs : Int)
      else min (2 ^ 63 - 1) (digits_value 0 (c :: cs) : Int)

/-- The conversion of a `long` to `int`: reduction modulo 2^32. -/
def long_to_int (z : Int) : Int := (z + 2 ^ 31) % 2 ^ 32 - 2 ^ 31

/-- `atoi`. -/
def atoi (s : List Nat) : Int := long_to_int (strtol s)

/-- The decimal digits of `n`, most significant first, in front of `acc`. -/
def fmt_digits (fuel n : Nat) (acc : List Nat) : List Nat :=
  match fuel with
  | 0 => acc
  | fuel + 1 =>
      if n < 10 then (48 + n) :: acc
      else fmt_digits fuel (n / 10) ((48 + n % 10) :: acc)

/-- What `%ld` prints. -/
def fmt_ld (z : Int) : List Nat :=
  if z < 0 then 45 :: fmt_digits (z.natAbs + 1) z.natAbs []
  else fmt_digits (z.toNat + 1) z.toNat []

/-- The bytes `fgets` stores when at most `n` may be stored: up to and
including the first newline, or `n` bytes, or all that is left. -/
def fgets_line (n : Nat) (inp : List Nat) : List Nat × List Nat :=
  match n, inp with
  | 0, rest => ([], rest)
  | _ + 1, [] => ([], [])
  | n + 1, c :: cs =>
      if c = 10 then ([c], cs)
      else ((c :: (fgets_line n cs).1), (fgets_line n cs).2)

/-- `fgets(buf, size, in)`: NULL at end of input, else the line and the rest. -/
def fgets (size : Nat) (inp : List Nat) : Option (List Nat × List Nat) :=
  match inp with
  | [] => none
  | _ :: _ => some (fgets_line (size - 1) inp)

/-! ## The request parser -/

/-- `upcase`: `toupper` applied to every byte of the string, in place. -/
def upcase (str : List Nat) : List Nat := str.map toupper

/-- The three fields `readreq_line` stores in the request. -/
structure RequestLine where
  method : List Nat
  path : List Nat
  protocol_minor_version : Int
  deriving DecidableEq, Repr

/-- `readreq_line`: one line of input is cut at its first two blanks into
method, path and protocol; the result is the fields stored and the input left. -/
def readreq_line (inp : List Nat) : Except Fatal (RequestLine × List Nat) :=
  match fgets LINE_BUF_SIZE inp with
  | none => .error .no_request_line
  | some (buf, rest) =>
      match strchr (c_str buf) 32 with
      | none => .error .request_line_1
      | some (method, p) =>
          match strchr p 32 with
          | none => .error .request_line_2
          | some (path, p) =>
              if !strncasecmp_eq p (bytes "HTTP/1.") (bytes "HTTP/1.").length then
                .error .request_line_3
              else
                .ok ({ method := upcase method, path := path,
                       protocol_minor_version := atoi (p.drop (bytes "HTTP/1.").length) },
                     rest)

/-- `read_header`: one line of input; `none` is the NULL returned for the line
that ends the header block. -/
def read_header (inp : List Nat) : Except Fatal (Option HTTPheader × List Nat) :=
  match fgets LINE_BUF_SIZE inp with
  | none => .error .header_read
  | some (buf, rest) =>
      if buf.head? = some 10 || strcmp_eq (c_str buf) (bytes "\r\n") then .ok (none, rest)
      else
        match strchr (c_str buf) 58 with
        | none => .error .header_no_colon
        | some (name, p) => .ok (some { name := name, value := skip_blanks p }, rest)

/-- The loop `while (h = read_header(in))` of `readreq`, which puts each header
in front of the list.  Every pass takes at least one byte of input, so the loop
makes at most `inp.length + 1` calls; `fuel` counts the calls still allowed,
and the case `0` is not reached from `readreq` (`read_headers_fuel`). -/
def read_headers (fuel : Nat) (inp : List Nat) (header : List HTTPheader) :
    Except Fatal (List HTTPheader × List Nat) :=
  match fuel with
  | 0 => .error .header_read
  | fuel + 1 =>
      match read_header inp with
      | .error e => .error e
      | .ok (none, rest) => .ok (header, rest)
      | .ok (some h, rest) => read_headers fuel rest (h :: header)

/-- `lookup_header`: the value of the first node whose name equals `name` up to
case, scanning from the head of the list. -/
def lookup_header (header : List HTTPheader) (name : List Nat) : Option (List Nat) :=
  match header with
  | [] => none
  | h :: next => if strcasecmp_eq h.name name then some h.value else lookup_header next name

/-- `content_length`: 0 without the header, else `atoi` of its value; a
negative value ends the run in `err_log`. -/
def content_length (header : List HTTPheader) : Except Fatal Int :=
  match lookup_header header (bytes "Content-Length") with
  | none => .ok 0
  | some val =>
      if atoi val < 0 then .error .negative_content_length
      else .ok (atoi val)

/-- `readreq`: request line, headers, then the body when the length is not 0.
`fread(body, length, 1, in) < 1` holds when fewer than `length` bytes are left. -/
def readreq (inp : List Nat) : Except Fatal (HTTPreq × List Nat) :=
  match readreq_line inp with
  | .error e => .error e
  | .ok (line, inp1) =>
      match read_headers (inp1.length + 1) inp1 [] with
      | .error e => .error e
      | .ok (header, inp2) =>
          match content_length header with
          | .error e => .error e
          | .ok length =>
              if length ≠ 0 then
                if length > MAX_REQUEST_BODY_LENGTH then .error .body_too_large
                else if inp2.length < length.toNat then .error .body_read
                else
                  .ok ({ protocol_minor_version := line.protocol_minor_version,
                         method := line.method, path := line.path, header := header,
                         body := some (inp2.take length.toNat), length := length },
                       inp2.drop length.toNat)
              else
                .ok ({ protocol_minor_version := line.protocol_minor_version,
                       method := line.method, path := line.path, header := header,
                       body := none, length := length },
                     inp2)

/-! ## The file resolver -/

/-- `build_filepath`: `sprintf(path, "%s/%s", docroot, urlpath)`. -/
def build_filepath (docroot urlpath : List Nat) : List Nat :=
  docroot ++ bytes "/" ++ urlpath

/-- `get_fileinfo`: `ok` only when `lstat` succeeds on a regular file. -/
def get_fileinfo (sys : Sys) (docroot urlpath : List Nat) : FileInfo :=
  match sys.lstat (build_filepath docroot urlpath) with
  | none => { path := build_filepath docroot urlpath, size := 0, ok := false }
  | some st =>
      if st.st_mode ≠ FileKind.regular then
        { path := build_filepath docroot urlpath, size := 0, ok := false }
      else
        { path := build_filepath docroot urlpath, size := st.st_size, ok := true }

/-- `guess_content_type`. -/
def guess_content_type (_info : FileInfo) : List Nat := bytes "text/plain"

/-! ## The response writer -/

/-- `output_common_header`: status line, `Date`, `Server`, `Connection`. -/
def output_common_header (sys : Sys) (status : List Nat) : List Nat :=
  bytes "HTTP/1." ++ fmt_ld HTTP_MINOR_VERSION ++ bytes " " ++ status ++ bytes "\r\n"
  ++ (bytes "Date: " ++ sys.date ++ bytes "\r\n")
  ++ (bytes "Server: " ++ SERVER_NAME ++ bytes "/" ++ SERVER_VERSION ++ bytes "\r\n")
  ++ bytes "Connection: close\r\n"

/-- `method_not_allowed`. -/
def method_not_allowed (sys : Sys) (req : HTTPreq) : List Nat :=
  output_common_header sys (bytes "405 Method Not Allowed")
  ++ bytes "Content-Type: text/html\r\n"
  ++ bytes "\r\n"
  ++ bytes "<html>\r\n"
  ++ bytes "<header>\r\n"
  ++ bytes "<title>405 Method Not Allowed</title>\r\n"
  ++ bytes "<header>\r\n"
  ++ bytes "<body>\r\n"
  ++ (bytes "<p>The request method " ++ req.method ++ bytes " is not allowed</p>\r\n")
  ++ bytes "</body>\r\n"
  ++ bytes "</html>\r\n"

/-- `not_implemented`. -/
def not_implemented (sys : Sys) (req : HTTPreq) : List Nat :=
  output_common_header sys (bytes "501 Not Implemented")
  ++ bytes "Content-type: text/html\r\n"
  ++ bytes "\r\n"
  ++ bytes "<html>\r\n"
  ++ bytes "<header>\r\n"
  ++ bytes "<title>501 Not Implemeted</title>\r\n"
  ++ bytes "<header>\r\n"
  ++ bytes "<body>\r\n"
  ++ (bytes "<p>The request method " ++ req.method ++ bytes " is not implemented</>\r\n")
  ++ bytes "</body>\r\n"
  ++ bytes "</html>\r\n"

/-- `not_found`: the HTML body is written unless the method is HEAD. -/
def not_found (sys : Sys) (req : HTTPreq) : List Nat :=
  output_common_header sys (bytes "404 Not Found")
  ++ bytes "Content-Type: text/html\r\n"
  ++ bytes "\r\n"
  ++ (if !strcmp_eq req.method (bytes "HEAD") then
        bytes "<html>\r\n"
        ++ bytes "<header><title>Not Found</title></header>\r\n"
        ++ bytes "<body><p>File not found</p></body>\r\n"
        ++ bytes "</html>\r\n"
      else [])

/-- The loop `while (1)` of `file_response` over the bytes the descriptor still
holds: `read` takes up to `BLOCK_BUF_SIZE` of them, 0 ends the loop, and
`fwrite` appends the block.  Every pass but the last takes at least one byte;
`fuel` counts the passes still allowed, and the case `0` is not reached from
`file_response` (`copy_blocks_fuel`). -/
def copy_blocks (fuel : Nat) (file : List Nat) : List Nat :=
  match fuel with
  | 0 => []
  | fuel + 1 =>
      if (file.take BLOCK_BUF_SIZE).length = 0 then []
      else file.take BLOCK_BUF_SIZE ++ copy_blocks fuel (file.drop BLOCK_BUF_SIZE)

/-- `file_response`: 404 when the file is not there, else the 200 header block
and, unless the method is HEAD, the file copied block by block. -/
def file_response (sys : Sys) (req : HTTPreq) (docroot : List Nat) : Outcome :=
  let info := get_fileinfo sys docroot req.path
  if !info.ok then
    { out := not_found sys req, fatal := none }
  else
    let head :=
      output_common_header sys (bytes "200 OK")
      ++ (bytes "Content-Length: " ++ fmt_ld info.size ++ bytes "\r\n")
      ++ (bytes "Content-Type: " ++ guess_content_type info ++ bytes "\r\n")
      ++ bytes "\r\n"
    if !strcmp_eq req.method (bytes "HEAD") then
      match sys.open_read info.path with
      | none => { out := head, fatal := some .open_failed }
      | some file => { out := head ++ copy_blocks (file.length + 1) file, fatal := none }
    else
      { out := head, fatal := none }

/-! ## The dispatcher -/

/-- `respond_to`: GET and HEAD go to `file_response`, POST to
`method_not_allowed`, everything else to `not_implemented`. -/
def respond_to (sys : Sys) (req : HTTPreq) (docroot : List Nat) : Outcome :=
  if strcmp_eq req.method (bytes "GET") then file_response sys req docroot
  else if strcmp_eq req.method (bytes "HEAD") then file_response sys req docroot
  else if strcmp_eq req.method (bytes "POST") then
    { out := method_not_allowed sys req, fatal := none }
  else
    { out := not_implemented sys req, fatal := none }

/-- `service`: nothing is written when `readreq` ends in `err_log`. -/
def service (sys : Sys) (inp : List Nat) (docroot : List Nat) : Outcome :=
  match readreq inp with
  | .error e => { out := [], fatal := some e }
  | .ok (req, _) => respond_to sys req docroot

/-! ## Well-formed input, in the words of the specification -/

/-- The request line `METHOD SP PATH SP HTTP/1.<n> CRLF` on the wire. -/
def request_line (method path minor : List Nat) : List Nat :=
  method ++ [32] ++ path ++ [32] ++ bytes "HTTP/1." ++ minor ++ bytes "\r\n"

/-- A request line is valid when method and path hold no blank, newline or
NUL, the minor version is made of digits, and the line with its CRLF fits the
line buffer (`LINE_BUF_SIZE - 1` bytes). -/
def valid_request_line (method path minor : List Nat) : Prop :=
  (∀ c ∈ method, c ≠ 32 ∧ c ≠ 10 ∧ c ≠ 0)
  ∧ (∀ c ∈ path, c ≠ 32 ∧ c ≠ 10 ∧ c ≠ 0)
  ∧ (∀ c ∈ minor, isdigit c = true)
  ∧ (request_line method path minor).length ≤ LINE_BUF_SIZE - 1

instance (method path minor : List Nat) : Decidable (valid_request_line method path minor) := by
  unfold valid_request_line
  infer_instance

/-- A header line `Name: value` on the wire: the name, the colon, blanks and
tabs, the value, and the line terminator. -/
structure HeaderLine where
  name : List Nat
  pad : List Nat
  value : List Nat
  eol : List Nat
  deriving DecidableEq, Repr

/-- The bytes of a header line. -/
def HeaderLine.wire (l : HeaderLine) : List Nat :=
  l.name ++ [58] ++ l.pad ++ l.value ++ l.eol

/-- A header line is well formed when the name holds no colon, newline or NUL,
the padding is blanks and tabs, the value holds no newline or NUL and does not
start with a blank or a tab, the terminator is CRLF or LF, and the line fits
the line buffer. -/
def HeaderLine.well_formed (l : HeaderLine) : Prop :=
  (∀ c ∈ l.name, c ≠ 58 ∧ c ≠ 10 ∧ c ≠ 0)
  ∧ (∀ c ∈ l.pad, c = 32 ∨ c = 9)
  ∧ (∀ c ∈ l.value, c ≠ 10 ∧ c ≠ 0)
  ∧ l.value.head? ≠ some 32 ∧ l.value.head? ≠ some 9
  ∧ (l.eol = bytes "\r\n" ∨ l.eol = bytes "\n")
  ∧ l.wire.length ≤ LINE_BUF_SIZE - 1

instance (l : HeaderLine) : Decidable l.well_formed := by
  unfold HeaderLine.well_formed
  infer_instance

/-- The list node `read_header` builds from a well-formed line: the name as
sent, and the value with the line terminator still attached. -/
def HeaderLine.stored (l : HeaderLine) : HTTPheader :=
  { name := l.name, value := l.value ++ l.eol }

/-- The bytes of a header block: its lines one after the other. -/
def header_block (ls : List HeaderLine) : List Nat :=
  match ls with
  | [] => []
  | l :: rest => l.wire ++ header_block rest

/-- Two header names are the same up to ASCII case. -/
def same_name (a b : List Nat) : Prop := a.map tolower = b.map tolower

instance (a b : List Nat) : Decidable (same_name a b) := by
  unfold same_name
  infer_instance

/-- The request line as `readreq_line` sees it: what `fgets` stores of the
input (at most `LINE_BUF_SIZE - 1` bytes, up to the first newline), cut at the
first NUL. -/
def request_buffer (inp : List Nat) : List Nat :=
  c_str (fgets_line (LINE_BUF_SIZE - 1) inp).1

/-- The field in front of the first blank of `s` (all of `s` without one). -/
def before_blank (s : List Nat) : List Nat := s.takeWhile (fun c => c != 32)

/-- What follows the first blank of `s`. -/
def after_blank (s : List Nat) : List Nat := (s.dropWhile (fun c => c != 32)).drop 1

/-! ## The response as a client reads it -/

/-- Lines on the wire: each line followed by CRLF. -/
def crlf_lines (lines : List (List Nat)) : List Nat :=
  match lines with
  | [] => []
  | l :: rest => l ++ bytes "\r\n" ++ crlf_lines rest

/-- The four lines of the common header block, without their CRLF. -/
def common_lines (sys : Sys) (status : List Nat) : List (List Nat) :=
  [bytes "HTTP/1.0 " ++ status, bytes "Date: " ++ sys.date,
   bytes "Server: sysproHTTP/1.0", bytes "Connection: close"]

/-- A client reading a response: lines ended by CRLF are collected up to the
first empty line, and what follows that line is the body.  `cur` holds the
bytes of the line being read, last byte first; `lines` the lines read so far,
last line first.  `none`: the output ends before an empty line. -/
def read_head (cur : List Nat) (lines : List (List Nat)) (out : List Nat) :
    Option (List (List Nat) × List Nat) :=
  match out with
  | [] => none
  | c :: rest =>
      if c = 10 ∧ cur.head? = some 13 then
        if cur.tail = [] then some (lines.reverse, rest)
        else read_head [] (cur.tail.reverse :: lines) rest
      else read_head (c :: cur) lines rest

/-- The first line of the output, without its CRLF. -/
def status_line (out : List Nat) : List Nat := out.takeWhile (fun c => c != 13)

/-- The body `not_found` writes for a method other than HEAD. -/
def html_404 : List Nat :=
  bytes "<html>\r\n"
  ++ bytes "<header><title>Not Found</title></header>\r\n"
  ++ bytes "<body><p>File not found</p></body>\r\n"
  ++ bytes "</html>\r\n"

/-- The body `method_not_allowed` writes. -/
def html_405 (method : List Nat) : List Nat :=
  bytes "<html>\r\n"
  ++ bytes "<header>\r\n"
  ++ bytes "<title>405 Method Not Allowed</title>\r\n"
  ++ bytes "<header>\r\n"
  ++ bytes "<body>\r\n"
  ++ (bytes "<p>The request method " ++ method ++ bytes " is not allowed</p>\r\n")
  ++ bytes "</body>\r\n"
  ++ bytes "</html>\r\n"

/-- The body `not_implemented` writes. -/
def html_501 (method : List Nat) : List Nat :=
  bytes "<html>\r\n"
  ++ bytes "<header>\r\n"
  ++ bytes "<title>501 Not Implemeted</title>\r\n"
  ++ bytes "<header>\r\n"
  ++ bytes "<body>\r\n"
  ++ (bytes "<p>The request method " ++ method ++ bytes " is not implemented</>\r\n")
  ++ bytes "</body>\r\n"
  ++ bytes "</html>\r\n"

/-- The four responses of section 4.5 of the specification, as status text,
header lines after the common block, and body: 200 with the file (no body for
HEAD, none either when the file cannot be opened), 404 with its HTML (no body
for HEAD), 405 for POST and 501 for every other method, both with their
HTML. -/
def response_case (sys : Sys) (req : HTTPreq) (docroot : List Nat)
    (status : List Nat) (extra : List (List Nat)) (body : List Nat) : Prop :=
  ((req.method = bytes "GET" ∨ req.method = bytes "HEAD")
      ∧ status = bytes "200 OK"
      ∧ extra = [bytes "Content-Length: " ++ fmt_ld (get_fileinfo sys docroot req.path).size,
                 bytes "Content-Type: text/plain"]
      ∧ (req.method = bytes "HEAD" → body = [])
      ∧ (body = [] ∨ sys.open_read (build_filepath docroot req.path) = some body))
  ∨ ((req.method = bytes "GET" ∨ req.method = bytes "HEAD")
      ∧ status = bytes "404 Not Found"
      ∧ extra = [bytes "Content-Type: text/html"]
      ∧ (req.method = bytes "HEAD" → body = [])
      ∧ (body = [] ∨ body = html_404))
  ∨ (req.method = bytes "POST"
      ∧ status = bytes "405 Method Not Allowed"
      ∧ extra = [bytes "Content-Type: text/html"]
      ∧ body = html_405 req.method)
  ∨ (req.method ≠ bytes "GET" ∧ req.method ≠ bytes "HEAD" ∧ req.method ≠ bytes "POST"
      ∧ status = bytes "501 Not Implemented"
      ∧ extra = [bytes "Content-type: text/html"]
      ∧ body = html_501 req.method)

/-! ## Sample world -/

/-- A filesystem under `/srv`: regular files of 0, 1, 5 and 1500 bytes and a
directory; every other path is missing. -/
def demo_sys : Sys where
  lstat := fun p =>
    if p = bytes "/srv//empty" then some { st_mode := .regular, st_size := 0 }
    else if p = bytes "/srv//one" then some { st_mode := .regular, st_size := 1 }
    else if p = bytes "/srv//a.txt" then some { st_mode := .regular, st_size := 5 }
    else if p = bytes "/srv//big" then some { st_mode := .regular, st_size := 1500 }
    else if p = bytes "/srv//dir" then some { st_mode := .directory, st_size := 4096 }
    else none
  open_read := fun p =>
    if p = bytes "/srv//empty" then some []
    else if p = bytes "/srv//one" then some (bytes "x")
    else if p = bytes "/srv//a.txt" then some (bytes "hello")
    else if p = bytes "/srv//big" then some (List.replicate 1500 120)
    else none
  date := bytes "Thu, 01 Jan 1970 00:00:00 GMT"

/-- A parsed request with the given method and path, no header and no body. -/
def demo_req (method path : String) : HTTPreq :=
  { protocol_minor_version := 0, method := bytes method, path := bytes path,
    header := [], body := none, length := 0 }

/-- The header line `Host: example.org` ended by CRLF. -/
def demo_host : HeaderLine :=
  { name := bytes "Host", pad := bytes " ", value := bytes "example.org", eol := bytes "\r\n" }

/-- The header line `Accept:` tab blank `text/plain` ended by a bare LF. -/
def demo_accept : HeaderLine :=
  { name := bytes "Accept", pad := bytes "\t ", value := bytes "text/plain", eol := bytes "\n" }

/-- The header line `X: 1`. -/
def demo_x1 : HeaderLine :=
  { name := bytes "X", pad := bytes " ", value := bytes "1", eol := bytes "\r\n" }

/-- The header line `x: 2`. -/
def demo_x2 : HeaderLine :=
  { name := bytes "x", pad := bytes " ", value := bytes "2", eol := bytes "\r\n" }

/-- The header line `content-length: 0`. -/
def demo_length0 : HeaderLine :=
  { name := bytes "content-length", pad := bytes " ", value := bytes "0", eol := bytes "\r\n" }

/-! ## Lemmas on the response writer -/

theorem copy_blocks_fuel (fuel : Nat) (file : List Nat) (h : file.length < fuel) :
    copy_blocks fuel file = file := by
  induction fuel generalizing file with
  | zero => omega
  | succ fuel ih =>
      unfold copy_blocks
      by_cases h0 : (file.take BLOCK_BUF_SIZE).length = 0
      · rw [if_pos h0]
        cases file with
        | nil => rfl
        | cons c cs => simp [BLOCK_BUF_SIZE] at h0
      · rw [if_neg h0]
        have hpos : 0 < file.length := by
          cases file with
          | nil => simp at h0
          | cons c cs => simp
        have hlt : (file.drop BLOCK_BUF_SIZE).length < fuel := by
          simp only [List.length_drop, BLOCK_BUF_SIZE]
          omega
        rw [ih _ hlt, List.take_append_drop]

theorem fmt_digits_spec (fuel n : Nat) (acc : List Nat) (h : n < fuel) :
    ∃ ds, fmt_digits fuel n acc = ds ++ acc
      ∧ ds ≠ []
      ∧ (∀ c ∈ ds, isdigit c = true)
      ∧ ∀ a rest, digits_value a (ds ++ rest) = digits_value (a * 10 ^ ds.length + n) rest := by
  induction fuel generalizing n acc with
  | zero => omega
  | succ fuel ih =>
      unfold fmt_digits
      by_cases h10 : n < 10
      · rw [if_pos h10]
        have hd : isdigit (48 + n) = true := by simp [isdigit]; omega
        refine ⟨[48 + n], rfl, by simp, by simpa using hd, ?_⟩
        intro a rest
        simp [digits_value, hd]
      · rw [if_neg h10]
        have hlt : n / 10 < fuel := by omega
        obtain ⟨ds, hds, _, hdig, hval⟩ := ih (n / 10) ((48 + n % 10) :: acc) hlt
        have hd : isdigit (48 + n % 10) = true := by simp [isdigit]; omega
        refine ⟨ds ++ [48 + n % 10], by simp [hds], by simp, ?_, ?_⟩
        · intro c hc
          rw [List.mem_append] at hc
          rcases hc with hc | hc
          · exact hdig c hc
          · simp only [List.mem_singleton] at hc
            rw [hc]
            exact hd
        · intro a rest
          rw [List.append_assoc, hval]
          simp only [List.singleton_append, digits_value, hd, if_true, List.length_append,
            List.length_singleton, Nat.add_sub_cancel_left]
          congr 1
          rw [pow_succ]
          nlinarith [Nat.div_add_mod n 10]

theorem digits_value_fmt_ld (n : Nat) : digits_value 0 (fmt_ld (n : Int)) = n := by
  have hneg : ¬ ((n : Int) < 0) := by omega
  obtain ⟨ds, hds, _, _, hval⟩ := fmt_digits_spec (n + 1) n [] (by omega)
  have h := hval 0 []
  simp only [List.append_nil] at hds h
  simp [fmt_ld, hneg, hds, h, digits_value]

theorem output_common_header_status_line (sys : Sys) (status : List Nat) :
    output_common_header sys status
      = bytes "HTTP/1.0 " ++ status ++ bytes "\r\n"
        ++ ((bytes "Date: " ++ sys.date ++ bytes "\r\n")
            ++ (bytes "Server: " ++ SERVER_NAME ++ bytes "/" ++ SERVER_VERSION ++ bytes "\r\n")
            ++ bytes "Connection: close\r\n") := by
  have h0 : bytes "HTTP/1." ++ fmt_ld HTTP_MINOR_VERSION ++ bytes " " = bytes "HTTP/1.0 " := by
    decide
  unfold output_common_header
  rw [h0]
  simp only [List.append_assoc]

theorem method_not_allowed_status_line (sys : Sys) (req : HTTPreq) :
    ∃ tail, method_not_allowed sys req
      = bytes "HTTP/1.0 " ++ bytes "405 Method Not Allowed" ++ bytes "\r\n" ++ tail := by
  unfold method_not_allowed
  rw [output_common_header_status_line]
  exact ⟨_, by simp only [List.append_assoc]; exact rfl⟩

theorem not_implemented_status_line (sys : Sys) (req : HTTPreq) :
    ∃ tail, not_implemented sys req
      = bytes "HTTP/1.0 " ++ bytes "501 Not Implemented" ++ bytes "\r\n" ++ tail := by
  unfold not_implemented
  rw [output_common_header_status_line]
  exact ⟨_, by simp only [List.append_assoc]; exact rfl⟩

theorem get_fileinfo_regular (sys : Sys) (docroot urlpath : List Nat) (st : Stat)
    (hst : sys.lstat (build_filepath docroot urlpath) = some st)
    (hreg : st.st_mode = FileKind.regular) :
    get_fileinfo sys docroot urlpath
      = { path := build_filepath docroot urlpath, size := st.st_size, ok := true } := by
  simp [get_fileinfo, hst, hreg]

theorem get_fileinfo_not_regular (sys : Sys) (docroot urlpath : List Nat)
    (hno : ∀ st, sys.lstat (build_filepath docroot urlpath) = some st
      → st.st_mode ≠ FileKind.regular) :
    (get_fileinfo sys docroot urlpath).ok = false := by
  unfold get_fileinfo
  cases hl : sys.lstat (build_filepath docroot urlpath) with
  | none => rfl
  | some st => simp [hno st hl]

/-! ## The dispatcher and the response writer: C1 to C4 -/

/-- C1. For a request that `readreq` returned and whose method is neither GET
nor HEAD, `service` is `respond_to` on that request, and `respond_to` writes
one complete response and returns: the 405 response when the method is POST,
the 501 response for every other method.  The first line written is
`HTTP/1.0 405 Method Not Allowed` or `HTTP/1.0 501 Not Implemented`, and the
result is the same for every docroot and every filesystem (of the world only
the date text is used). -/
theorem respond_to_post_405_other_501 (sys : Sys) (inp rest docroot : List Nat) (req : HTTPreq)
    (hreq : readreq inp = .ok (req, rest))
    (hget : req.method ≠ bytes "GET") (hhead : req.method ≠ bytes "HEAD") :
    service sys inp docroot = respond_to sys req docroot
    ∧ respond_to sys req docroot
        = { out := (if req.method = bytes "POST" then method_not_allowed sys req
                    else not_implemented sys req),
            fatal := none }
    ∧ (∃ tail, (respond_to sys req docroot).out
        = bytes "HTTP/1.0 "
          ++ (if req.method = bytes "POST" then bytes "405 Method Not Allowed"
              else bytes "501 Not Implemented")
          ++ bytes "\r\n" ++ tail)
    ∧ ∀ (sys2 : Sys) (docroot2 : List Nat), sys2.date = sys.date →
        respond_to sys2 req docroot2 = respond_to sys req docroot := by
  have hs : ∀ (s : Sys) (d : List Nat), respond_to s req d
      = { out := (if req.method = bytes "POST" then method_not_allowed s req
                  else not_implemented s req),
          fatal := none } := by
    intro s d
    have h1 : strcmp_eq req.method (bytes "GET") = false := by
      simpa [strcmp_eq] using hget
    have h2 : strcmp_eq req.method (bytes "HEAD") = false := by
      simpa [strcmp_eq] using hhead
    by_cases hp : req.method = bytes "POST"
    · have h3 : strcmp_eq req.method (bytes "POST") = true := by
        simpa [strcmp_eq] using hp
      simp only [respond_to, h1, h2, h3, if_pos hp, Bool.false_eq_true, if_false, if_true]
    · have h3 : strcmp_eq req.method (bytes "POST") = false := by
        simpa [strcmp_eq] using hp
      simp only [respond_to, h1, h2, h3, if_neg hp, Bool.false_eq_true, if_false]
  refine ⟨?_, hs sys docroot, ?_, ?_⟩
  · simp [service, hreq]
  · rw [hs]
    by_cases hp : req.method = bytes "POST"
    · simp only [if_pos hp]
      exact method_not_allowed_status_line sys req
    · simp only [if_neg hp]
      exact not_implemented_status_line sys req
  · intro sys2 docroot2 hd
    rw [hs, hs]
    simp [method_not_allowed, not_implemented, output_common_header, hd]

/-- C1, at the requests `post /a.txt HTTP/1.1` (the path of an existing file)
and `DELETE /a.txt HTTP/1.0`. -/
theorem respond_to_post_405_other_501_witness :
    (∃ tail, (service demo_sys (bytes "post /a.txt HTTP/1.1\r\nHost: x\r\n\r\n")
        (bytes "/srv")).out = bytes "HTTP/1.0 405 Method Not Allowed\r\n" ++ tail)
    ∧ (∃ tail, (service demo_sys (bytes "DELETE /a.txt HTTP/1.0\r\n\r\n")
        (bytes "/srv")).out = bytes "HTTP/1.0 501 Not Implemented\r\n" ++ tail) :=
  have h1 := respond_to_post_405_other_501 demo_sys
    (bytes "post /a.txt HTTP/1.1\r\nHost: x\r\n\r\n") [] (bytes "/srv")
    { protocol_minor_version := 1, method := bytes "POST", path := bytes "/a.txt",
      header := [{ name := bytes "Host", value := bytes "x\r\n" }], body := none, length := 0 }
    rfl (by decide) (by decide)
  have h2 := respond_to_post_405_other_501 demo_sys
    (bytes "DELETE /a.txt HTTP/1.0\r\n\r\n") [] (bytes "/srv")
    { protocol_minor_version := 0, method := bytes "DELETE", path := bytes "/a.txt",
      header := [], body := none, length := 0 }
    rfl (by decide) (by decide)
  ⟨by rw [h1.1]; exact h1.2.2.1, by rw [h2.1]; exact h2.2.2.1⟩

/-- C2. When the resolved path of a GET request is a regular file whose `lstat`
size is the length of the bytes `c` the descriptor delivers, `file_response`
(which is what `respond_to` runs) ends normally and writes the common header
block with status `200 OK`, the header `Content-Length` carrying the decimal
digits of that length, `Content-Type`, the blank line, and then exactly `c`.
The block loop gives back `c` for every number of allowed passes above the
length of `c`, so the bound used by `file_response` is never what stops it. -/
theorem file_response_get_200 (sys : Sys) (req : HTTPreq) (docroot c : List Nat)
    (hm : req.method = bytes "GET")
    (hst : sys.lstat (build_filepath docroot req.path)
      = some { st_mode := FileKind.regular, st_size := (c.length : Int) })
    (hop : sys.open_read (build_filepath docroot req.path) = some c) :
    respond_to sys req docroot = file_response sys req docroot
    ∧ file_response sys req docroot
        = { out := output_common_header sys (bytes "200 OK")
              ++ (bytes "Content-Length: " ++ fmt_ld (c.length : Int) ++ bytes "\r\n")
              ++ bytes "Content-Type: text/plain\r\n"
              ++ bytes "\r\n"
              ++ c,
            fatal := none }
    ∧ (∃ tail, (file_response sys req docroot).out = bytes "HTTP/1.0 200 OK\r\n" ++ tail)
    ∧ digits_value 0 (fmt_ld (c.length : Int)) = c.length
    ∧ ∀ fuel, c.length < fuel → copy_blocks fuel c = c := by
  have hinfo := get_fileinfo_regular sys docroot req.path _ hst rfl
  have hnot : strcmp_eq req.method (bytes "HEAD") = false := by
    rw [hm]; decide
  have hct : bytes "Content-Type: " ++ bytes "text/plain" ++ bytes "\r\n"
      = bytes "Content-Type: text/plain\r\n" := by decide
  have hfr : file_response sys req docroot
        = { out := output_common_header sys (bytes "200 OK")
              ++ (bytes "Content-Length: " ++ fmt_ld (c.length : Int) ++ bytes "\r\n")
              ++ bytes "Content-Type: text/plain\r\n"
              ++ bytes "\r\n"
              ++ c,
            fatal := none } := by
    simp only [file_response, hinfo, hnot, hop, guess_content_type, hct,
      copy_blocks_fuel (c.length + 1) c (Nat.lt_succ_self _)]
    rfl
  refine ⟨?_, hfr, ?_, digits_value_fmt_ld c.length, fun fuel h => copy_blocks_fuel fuel c h⟩
  · have hg : strcmp_eq req.method (bytes "GET") = true := by rw [hm]; decide
    simp [respond_to, hg]
  · rw [hfr, output_common_header_status_line]
    have h200 : bytes "HTTP/1.0 " ++ bytes "200 OK" ++ bytes "\r\n"
        = bytes "HTTP/1.0 200 OK\r\n" := by decide
    rw [h200]
    exact ⟨_, by simp only [List.append_assoc]; exact rfl⟩

set_option maxRecDepth 10000 in
/-- C2, at the files of 0, 1 and 1500 bytes of the sample world. -/
theorem file_response_get_200_witness :
    (file_response demo_sys (demo_req "GET" "/empty") (bytes "/srv")).out
        = output_common_header demo_sys (bytes "200 OK")
          ++ (bytes "Content-Length: " ++ fmt_ld 0 ++ bytes "\r\n")
          ++ bytes "Content-Type: text/plain\r\n" ++ bytes "\r\n" ++ []
    ∧ (file_response demo_sys (demo_req "GET" "/one") (bytes "/srv")).out
        = output_common_header demo_sys (bytes "200 OK")
          ++ (bytes "Content-Length: " ++ fmt_ld 1 ++ bytes "\r\n")
          ++ bytes "Content-Type: text/plain\r\n" ++ bytes "\r\n" ++ bytes "x"
    ∧ (file_response demo_sys (demo_req "GET" "/big") (bytes "/srv")).out
        = output_common_header demo_sys (bytes "200 OK")
          ++ (bytes "Content-Length: " ++ fmt_ld 1500 ++ bytes "\r\n")
          ++ bytes "Content-Type: text/plain\r\n" ++ bytes "\r\n" ++ List.replicate 1500 120 :=
  ⟨congrArg Outcome.out
      (file_response_get_200 demo_sys (demo_req "GET" "/empty") (bytes "/srv") []
        (by decide) (by decide) (by decide)).2.1,
   congrArg Outcome.out
      (file_response_get_200 demo_sys (demo_req "GET" "/one") (bytes "/srv") (bytes "x")
        (by decide) (by decide) (by decide)).2.1,
   congrArg Outcome.out
      (file_response_get_200 demo_sys (demo_req "GET" "/big") (bytes "/srv")
        (List.replicate 1500 120) (by decide) (by rw [List.length_replicate]; rfl) rfl).2.1⟩

/-- C3. When `lstat` reports the resolved path as a regular file and the
descriptor delivers the bytes `c`, a HEAD request and a GET request for the same
path both end normally; the HEAD output is exactly the 200 header block through
the blank line, and the GET output is the HEAD output followed by `c`. -/
theorem get_output_is_head_output_then_file (sys : Sys) (get head : HTTPreq)
    (docroot c : List Nat) (st : Stat)
    (hget : get.method = bytes "GET") (hhead : head.method = bytes "HEAD")
    (hpath : head.path = get.path)
    (hst : sys.lstat (build_filepath docroot get.path) = some st)
    (hreg : st.st_mode = FileKind.regular)
    (hop : sys.open_read (build_filepath docroot get.path) = some c) :
    (respond_to sys head docroot).out
        = output_common_header sys (bytes "200 OK")
          ++ (bytes "Content-Length: " ++ fmt_ld st.st_size ++ bytes "\r\n")
          ++ bytes "Content-Type: text/plain\r\n"
          ++ bytes "\r\n"
    ∧ (respond_to sys get docroot).out = (respond_to sys head docroot).out ++ c
    ∧ (respond_to sys head docroot).fatal = none
    ∧ (respond_to sys get docroot).fatal = none := by
  have hinfo := get_fileinfo_regular sys docroot get.path st hst hreg
  have hct : bytes "Content-Type: " ++ bytes "text/plain" ++ bytes "\r\n"
      = bytes "Content-Type: text/plain\r\n" := by decide
  have hG : respond_to sys get docroot
      = { out := output_common_header sys (bytes "200 OK")
            ++ (bytes "Content-Length: " ++ fmt_ld st.st_size ++ bytes "\r\n")
            ++ bytes "Content-Type: text/plain\r\n"
            ++ bytes "\r\n" ++ c,
          fatal := none } := by
    have h1 : strcmp_eq get.method (bytes "GET") = true := by rw [hget]; decide
    have h2 : strcmp_eq get.method (bytes "HEAD") = false := by rw [hget]; decide
    simp only [respond_to, h1, if_true, file_response, hinfo, h2, hop, guess_content_type, hct,
      copy_blocks_fuel (c.length + 1) c (Nat.lt_succ_self _)]
    rfl
  have hH : respond_to sys head docroot
      = { out := output_common_header sys (bytes "200 OK")
            ++ (bytes "Content-Length: " ++ fmt_ld st.st_size ++ bytes "\r\n")
            ++ bytes "Content-Type: text/plain\r\n"
            ++ bytes "\r\n",
          fatal := none } := by
    have h1 : strcmp_eq head.method (bytes "GET") = false := by rw [hhead]; decide
    have h2 : strcmp_eq head.method (bytes "HEAD") = true := by rw [hhead]; decide
    simp only [respond_to, h1, h2, if_true, file_response, hpath, hinfo, guess_content_type, hct]
    rfl
  rw [hG, hH]
  exact ⟨rfl, rfl, rfl, rfl⟩

/-- C3, at the five-byte file of the sample world. -/
theorem get_output_is_head_output_then_file_witness :
    (respond_to demo_sys (demo_req "GET" "/a.txt") (bytes "/srv")).out
      = (respond_to demo_sys (demo_req "HEAD" "/a.txt") (bytes "/srv")).out ++ bytes "hello" :=
  (get_output_is_head_output_then_file demo_sys (demo_req "GET" "/a.txt")
    (demo_req "HEAD" "/a.txt") (bytes "/srv") (bytes "hello")
    { st_mode := FileKind.regular, st_size := 5 }
    (by decide) (by decide) (by decide) (by decide) (by decide) (by decide)).2.1

/-- C4. When `lstat` fails on the resolved path or reports something other
than a regular file, a GET or HEAD request ends normally with the 404 response:
status line `HTTP/1.0 404 Not Found`, the common headers, `Content-Type`, the
blank line, and then the four lines of HTML (which are not empty) for GET and
nothing at all for HEAD. -/
theorem missing_file_404 (sys : Sys) (req : HTTPreq) (docroot : List Nat)
    (hm : req.method = bytes "GET" ∨ req.method = bytes "HEAD")
    (hno : ∀ st, sys.lstat (build_filepath docroot req.path) = some st
      → st.st_mode ≠ FileKind.regular) :
    respond_to sys req docroot
        = { out := output_common_header sys (bytes "404 Not Found")
              ++ bytes "Content-Type: text/html\r\n"
              ++ bytes "\r\n"
              ++ (if req.method = bytes "GET" then
                    bytes "<html>\r\n"
                    ++ bytes "<header><title>Not Found</title></header>\r\n"
                    ++ bytes "<body><p>File not found</p></body>\r\n"
                    ++ bytes "</html>\r\n"
                  else []),
            fatal := none }
    ∧ (bytes "<html>\r\n"
        ++ bytes "<header><title>Not Found</title></header>\r\n"
        ++ bytes "<body><p>File not found</p></body>\r\n"
        ++ bytes "</html>\r\n") ≠ []
    ∧ ∃ tail, (respond_to sys req docroot).out = bytes "HTTP/1.0 404 Not Found\r\n" ++ tail := by
  have hok := get_fileinfo_not_regular sys docroot req.path hno
  have hr : respond_to sys req docroot = { out := not_found sys req, fatal := none } := by
    rcases hm with h | h
    · have h1 : strcmp_eq req.method (bytes "GET") = true := by rw [h]; decide
      simp [respond_to, h1, file_response, hok]
    · have h1 : strcmp_eq req.method (bytes "GET") = false := by rw [h]; decide
      have h2 : strcmp_eq req.method (bytes "HEAD") = true := by rw [h]; decide
      simp [respond_to, h1, h2, file_response, hok]
  have hbody : (if (!strcmp_eq req.method (bytes "HEAD")) = true then
          bytes "<html>\r\n"
          ++ bytes "<header><title>Not Found</title></header>\r\n"
          ++ bytes "<body><p>File not found</p></body>\r\n"
          ++ bytes "</html>\r\n"
        else [])
      = (if req.method = bytes "GET" then
          bytes "<html>\r\n"
          ++ bytes "<header><title>Not Found</title></header>\r\n"
          ++ bytes "<body><p>File not found</p></body>\r\n"
          ++ bytes "</html>\r\n"
        else []) := by
    rcases hm with h | h
    · have h2 : strcmp_eq req.method (bytes "HEAD") = false := by rw [h]; decide
      rw [if_pos (by rw [h2]; rfl), if_pos h]
    · have h2 : strcmp_eq req.method (bytes "HEAD") = true := by rw [h]; decide
      have h3 : req.method ≠ bytes "GET" := by rw [h]; decide
      rw [if_neg (by rw [h2]; decide), if_neg h3]
  refine ⟨?_, by decide, ?_⟩
  · rw [hr]
    unfold not_found
    rw [hbody]
  · rw [hr]
    show ∃ tail, not_found sys req = bytes "HTTP/1.0 404 Not Found\r\n" ++ tail
    unfold not_found
    rw [output_common_header_status_line]
    have h404 : bytes "HTTP/1.0 " ++ bytes "404 Not Found" ++ bytes "\r\n"
        = bytes "HTTP/1.0 404 Not Found\r\n" := by decide
    rw [h404]
    exact ⟨_, by simp only [List.append_assoc]; exact rfl⟩

/-- C4, at a missing path (GET) and at a directory (HEAD) of the sample world. -/
theorem missing_file_404_witness :
    (respond_to demo_sys (demo_req "GET" "/nothing") (bytes "/srv")).out
        = output_common_header demo_sys (bytes "404 Not Found")
          ++ bytes "Content-Type: text/html\r\n"
          ++ bytes "\r\n"
          ++ (bytes "<html>\r\n"
              ++ bytes "<header><title>Not Found</title></header>\r\n"
              ++ bytes "<body><p>File not found</p></body>\r\n"
              ++ bytes "</html>\r\n")
    ∧ (respond_to demo_sys (demo_req "HEAD" "/dir") (bytes "/srv")).out
        = output_common_header demo_sys (bytes "404 Not Found")
          ++ bytes "Content-Type: text/html\r\n"
          ++ bytes "\r\n"
          ++ [] :=
  ⟨congrArg Outcome.out
      (missing_file_404 demo_sys (demo_req "GET" "/nothing") (bytes "/srv")
        (by decide) (by decide)).1,
   congrArg Outcome.out
      (missing_file_404 demo_sys (demo_req "HEAD" "/dir") (bytes "/srv")
        (by decide) (by decide)).1⟩

/-! ## Lemmas on the C library -/

theorem fgets_line_newline (n : Nat) (l rest : List Nat)
    (hl : ∀ c ∈ l, c ≠ 10) (hn : l.length < n) :
    fgets_line n (l ++ 10 :: rest) = (l ++ [10], rest) := by
  induction l generalizing n with
  | nil =>
      cases n with
      | zero => simp at hn
      | succ n => simp [fgets_line]
  | cons c cs ih =>
      cases n with
      | zero => simp at hn
      | succ n =>
          have hc : c ≠ 10 := hl c (by simp)
          have hcs : ∀ x ∈ cs, x ≠ 10 := fun x hx => hl x (by simp [hx])
          have hlen : cs.length < n := by simpa using hn
          simp [fgets_line, hc, ih n hcs hlen]

theorem fgets_newline (l rest : List Nat)
    (hl : ∀ c ∈ l, c ≠ 10) (hn : l.length + 1 ≤ LINE_BUF_SIZE - 1) :
    fgets LINE_BUF_SIZE (l ++ 10 :: rest) = some (l ++ [10], rest) := by
  have h := fgets_line_newline (LINE_BUF_SIZE - 1) l rest hl (by omega)
  cases l with
  | nil => simpa [fgets] using h
  | cons c cs => simpa [fgets] using h

theorem c_str_eq_self (l : List Nat) (hl : ∀ c ∈ l, c ≠ 0) : c_str l = l := by
  unfold c_str
  rw [List.takeWhile_eq_self_iff]
  intro c hc
  simpa using hl c hc

theorem strchr_append (a b : List Nat) (c : Nat) (ha : ∀ x ∈ a, x ≠ c) :
    strchr (a ++ c :: b) c = some (a, b) := by
  induction a with
  | nil => simp [strchr]
  | cons x xs ih =>
      have hx : x ≠ c := ha x (by simp)
      have hxs : ∀ y ∈ xs, y ≠ c := fun y hy => ha y (by simp [hy])
      simp [strchr, hx, ih hxs]

theorem strchr_none (s : List Nat) (c : Nat) (hs : ∀ x ∈ s, x ≠ c) : strchr s c = none := by
  induction s with
  | nil => simp [strchr]
  | cons x xs ih =>
      have hx : x ≠ c := hs x (by simp)
      have hxs : ∀ y ∈ xs, y ≠ c := fun y hy => hs y (by simp [hy])
      simp [strchr, hx, ih hxs]

theorem tolower_toupper (c : Nat) : tolower (toupper c) = tolower c := by
  unfold tolower toupper
  split_ifs <;> omega

theorem islower_toupper (c : Nat) : islower (toupper c) = false := by
  unfold islower toupper
  split_ifs with h
  · simp only [Bool.and_eq_false_imp, decide_eq_true_eq, decide_eq_false_iff_not]
    omega
  · simp only [Bool.and_eq_false_imp, decide_eq_true_eq, decide_eq_false_iff_not]
    omega

theorem strcasecmp_eq_upcase (s : List Nat) : strcasecmp_eq (upcase s) s = true := by
  simp [strcasecmp_eq, upcase, tolower_toupper]

theorem skip_blanks_pad (pad v : List Nat) (hpad : ∀ c ∈ pad, c = 32 ∨ c = 9)
    (h32 : v.head? ≠ some 32) (h9 : v.head? ≠ some 9) :
    skip_blanks (pad ++ v) = v := by
  induction pad with
  | nil =>
      cases v with
      | nil => rfl
      | cons x xs =>
          have hx32 : x ≠ 32 := by simpa using h32
          have hx9 : x ≠ 9 := by simpa using h9
          simp [skip_blanks, List.dropWhile_cons, hx32, hx9]
  | cons c cs ih =>
      have hc : c = 32 ∨ c = 9 := hpad c (by simp)
      have hcs : ∀ y ∈ cs, y = 32 ∨ y = 9 := fun y hy => hpad y (by simp [hy])
      have ih2 := ih hcs
      unfold skip_blanks at ih2 ⊢
      rcases hc with h | h <;> simp [List.dropWhile_cons, h, ih2]

/-! ## Lemmas on the request parser -/

theorem readreq_line_valid (method path minor rest : List Nat)
    (h : valid_request_line method path minor) :
    readreq_line (request_line method path minor ++ rest)
      = .ok ({ method := upcase method, path := path,
               protocol_minor_version := atoi (minor ++ bytes "\r\n") }, rest) := by
  obtain ⟨hm, hp, hv, hlen⟩ := h
  have hH : bytes "HTTP/1." = [72, 84, 84, 80, 47, 49, 46] := by decide
  have hcrlf : bytes "\r\n" = [13, 10] := by decide
  have hvd : ∀ c ∈ minor, c ≠ 10 ∧ c ≠ 0 := by
    intro c hc
    have := hv c hc
    simp only [isdigit, Bool.and_eq_true, decide_eq_true_eq] at this
    omega
  have hshape : request_line method path minor ++ rest
      = (method ++ 32 :: (path ++ 32 :: (bytes "HTTP/1." ++ (minor ++ [13]))))
        ++ 10 :: rest := by
    simp [request_line, hcrlf]
  have hnl : ∀ c ∈ method ++ 32 :: (path ++ 32 :: (bytes "HTTP/1." ++ (minor ++ [13]))),
      c ≠ 10 ∧ c ≠ 0 := by
    intro c hc
    simp only [hH, List.mem_append, List.mem_cons, List.mem_singleton, List.not_mem_nil,
      or_false] at hc
    rcases hc with hc | hc | hc | hc | hc
    · exact ⟨(hm c hc).2.1, (hm c hc).2.2⟩
    · omega
    · exact ⟨(hp c hc).2.1, (hp c hc).2.2⟩
    · omega
    · rcases hc with hc | hc
      · omega
      · rcases hc with hc | hc
        · exact hvd c hc
        · omega
  have hlen2 : (method ++ 32 :: (path ++ 32 :: (bytes "HTTP/1." ++ (minor ++ [13])))).length + 1
      ≤ LINE_BUF_SIZE - 1 := by
    have : (request_line method path minor).length
        = (method ++ 32 :: (path ++ 32 :: (bytes "HTTP/1." ++ (minor ++ [13])))).length + 1 := by
      simp [request_line, hcrlf]
      omega
    omega
  have hfg := fgets_newline _ rest (fun c hc => (hnl c hc).1) hlen2
  have hcs : c_str ((method ++ 32 :: (path ++ 32 :: (bytes "HTTP/1." ++ (minor ++ [13]))))
      ++ [10]) = method ++ 32 :: (path ++ 32 :: (bytes "HTTP/1." ++ (minor ++ [13, 10]))) := by
    rw [c_str_eq_self]
    · simp
    · intro c hc
      rw [List.mem_append] at hc
      rcases hc with hc | hc
      · exact (hnl c hc).2
      · simp at hc; omega
  have h1 := strchr_append method (path ++ 32 :: (bytes "HTTP/1." ++ (minor ++ [13, 10]))) 32
    (fun c hc => (hm c hc).1)
  have h2 := strchr_append path (bytes "HTTP/1." ++ (minor ++ [13, 10])) 32
    (fun c hc => (hp c hc).1)
  have h3 : strncasecmp_eq (bytes "HTTP/1." ++ (minor ++ [13, 10])) (bytes "HTTP/1.")
      (bytes "HTTP/1.").length = true := by
    simp [strncasecmp_eq]
  have h4 : (bytes "HTTP/1." ++ (minor ++ [13, 10])).drop (bytes "HTTP/1.").length
      = minor ++ [13, 10] := by
    simp
  unfold readreq_line
  rw [hshape, hfg]
  simp only [hcs, h1, h2, h3, h4, hcrlf]
  rfl

theorem read_header_line (l : HeaderLine) (rest : List Nat) (h : l.well_formed) :
    read_header (l.wire ++ rest) = .ok (some l.stored, rest) := by
  obtain ⟨hname, hpad, hval, h32, h9, heol, hlen⟩ := h
  have hcrlf : bytes "\r\n" = [13, 10] := by decide
  have hlf : bytes "\n" = [10] := by decide
  -- the line without its final newline
  obtain ⟨cr, hcr, heol2⟩ : ∃ cr : List Nat, (cr = [13] ∨ cr = []) ∧ l.eol = cr ++ [10] := by
    rcases heol with h | h
    · exact ⟨[13], Or.inl rfl, by rw [h, hcrlf]; rfl⟩
    · exact ⟨[], Or.inr rfl, by rw [h, hlf]; rfl⟩
  have hcrm : ∀ c ∈ cr, c = 13 := by
    intro c hc
    rcases hcr with h | h <;> simp [h] at hc
    exact hc
  have hshape : l.wire ++ rest
      = (l.name ++ 58 :: (l.pad ++ (l.value ++ cr))) ++ 10 :: rest := by
    simp [HeaderLine.wire, heol2]
  have hnl : ∀ c ∈ l.name ++ 58 :: (l.pad ++ (l.value ++ cr)), c ≠ 10 ∧ c ≠ 0 := by
    intro c hc
    simp only [List.mem_append, List.mem_cons] at hc
    rcases hc with hc | hc | hc | hc | hc
    · exact ⟨(hname c hc).2.1, (hname c hc).2.2⟩
    · omega
    · rcases hpad c hc with h | h <;> omega
    · exact hval c hc
    · have := hcrm c hc
      omega
  have hlen2 : (l.name ++ 58 :: (l.pad ++ (l.value ++ cr))).length + 1 ≤ LINE_BUF_SIZE - 1 := by
    have : l.wire.length = (l.name ++ 58 :: (l.pad ++ (l.value ++ cr))).length + 1 := by
      simp [HeaderLine.wire, heol2]
      omega
    omega
  have hfg := fgets_newline _ rest (fun c hc => (hnl c hc).1) hlen2
  have hcs : c_str ((l.name ++ 58 :: (l.pad ++ (l.value ++ cr))) ++ [10])
      = l.name ++ 58 :: (l.pad ++ (l.value ++ l.eol)) := by
    rw [c_str_eq_self]
    · simp [heol2]
    · intro c hc
      rw [List.mem_append] at hc
      rcases hc with hc | hc
      · exact (hnl c hc).2
      · simp at hc; omega
  have hhead : ((l.name ++ 58 :: (l.pad ++ (l.value ++ cr))) ++ [10]).head? ≠ some 10 := by
    cases hn : l.name with
    | nil => simp
    | cons x xs =>
        have := (hname x (by simp [hn])).2.1
        simpa using this
  have hne : strcmp_eq (l.name ++ 58 :: (l.pad ++ (l.value ++ l.eol))) (bytes "\r\n")
      = false := by
    rw [hcrlf]
    simp only [strcmp_eq, beq_eq_false_iff_ne, ne_eq]
    intro heq
    have hmem : (58 : Nat) ∈ l.name ++ 58 :: (l.pad ++ (l.value ++ l.eol)) := by simp
    rw [heq] at hmem
    simp at hmem
  have hsplit := strchr_append l.name (l.pad ++ (l.value ++ l.eol)) 58
    (fun c hc => (hname c hc).1)
  have hskip : skip_blanks (l.pad ++ (l.value ++ l.eol)) = l.value ++ l.eol := by
    apply skip_blanks_pad _ _ hpad
    · cases hv : l.value with
      | nil => rcases hcr with h | h <;> simp [heol2, h]
      | cons x xs => simpa [hv] using h32
    · cases hv : l.value with
      | nil => rcases hcr with h | h <;> simp [heol2, h]
      | cons x xs => simpa [hv] using h9
  unfold read_header
  rw [hshape, hfg]
  simp only [hcs, hne, hsplit, hskip, Bool.or_false]
  rw [if_neg (by simpa using hhead)]
  rfl

theorem read_header_blank (blank rest : List Nat)
    (hb : blank = bytes "\r\n" ∨ blank = bytes "\n") :
    read_header (blank ++ rest) = .ok (none, rest) := by
  rcases hb with h | h
  · subst h
    rfl
  · subst h
    rfl

theorem fgets_line_length (n : Nat) (inp : List Nat) :
    (fgets_line n inp).1.length + (fgets_line n inp).2.length = inp.length := by
  induction inp generalizing n with
  | nil => cases n <;> simp [fgets_line]
  | cons c cs ih =>
      cases n with
      | zero => simp [fgets_line]
      | succ n =>
          by_cases hc : c = 10
          · simp [fgets_line, hc]
            omega
          · have := ih n
            simp only [fgets_line, hc, if_false, List.length_cons]
            omega

theorem fgets_rest_shorter (inp buf rest : List Nat)
    (h : fgets LINE_BUF_SIZE inp = some (buf, rest)) : rest.length < inp.length := by
  cases inp with
  | nil => simp [fgets] at h
  | cons c cs =>
      simp only [fgets, Option.some.injEq] at h
      have hlen := fgets_line_length (LINE_BUF_SIZE - 1) (c :: cs)
      have hpos : 0 < (fgets_line (LINE_BUF_SIZE - 1) (c :: cs)).1.length := by
        have : LINE_BUF_SIZE - 1 = 4094 + 1 := by decide
        rw [this]
        by_cases hc : c = 10 <;> simp [fgets_line, hc]
      rw [h] at hlen hpos
      simp only at hlen hpos
      omega

theorem read_header_rest_shorter (inp rest : List Nat) (h : Option HTTPheader)
    (hr : read_header inp = .ok (h, rest)) : rest.length < inp.length := by
  unfold read_header at hr
  cases hf : fgets LINE_BUF_SIZE inp with
  | none => simp [hf] at hr
  | some br =>
      obtain ⟨buf, r⟩ := br
      have hlt := fgets_rest_shorter inp buf r hf
      simp only [hf] at hr
      split at hr
      · simp only [Except.ok.injEq, Prod.mk.injEq] at hr
        rw [← hr.2]
        exact hlt
      · split at hr
        · simp at hr
        · simp only [Except.ok.injEq, Prod.mk.injEq] at hr
          rw [← hr.2]
          exact hlt

/-- The bound on the header loop is never what ends it: with more calls allowed
than bytes of input, the loop gives the same result whatever the bound. -/
theorem read_headers_fuel (fuel fuel2 : Nat) (inp : List Nat) (header : List HTTPheader)
    (h1 : inp.length < fuel) (h2 : inp.length < fuel2) :
    read_headers fuel inp header = read_headers fuel2 inp header := by
  induction fuel generalizing fuel2 inp header with
  | zero => omega
  | succ fuel ih =>
      cases fuel2 with
      | zero => omega
      | succ fuel2 =>
          unfold read_headers
          cases hr : read_header inp with
          | error e => rfl
          | ok res =>
              obtain ⟨h, rest⟩ := res
              have hlt := read_header_rest_shorter inp rest h hr
              cases h with
              | none => rfl
              | some hd => exact ih fuel2 rest (hd :: header) (by omega) (by omega)

theorem read_headers_block (ls : List HeaderLine) (blank rest : List Nat)
    (header : List HTTPheader) (fuel : Nat)
    (hwf : ∀ l ∈ ls, l.well_formed)
    (hb : blank = bytes "\r\n" ∨ blank = bytes "\n")
    (hfuel : ls.length < fuel) :
    read_headers fuel (header_block ls ++ (blank ++ rest)) header
      = .ok ((ls.map HeaderLine.stored).reverse ++ header, rest) := by
  induction ls generalizing header fuel with
  | nil =>
      cases fuel with
      | zero => simp at hfuel
      | succ fuel =>
          simp only [header_block, List.nil_append, read_headers, read_header_blank blank rest hb]
          rfl
  | cons l ls ih =>
      cases fuel with
      | zero => simp at hfuel
      | succ fuel =>
          have hl : l.well_formed := hwf l (by simp)
          have hls : ∀ x ∈ ls, x.well_formed := fun x hx => hwf x (by simp [hx])
          have hf : ls.length < fuel := by simpa using hfuel
          simp only [header_block, List.append_assoc, read_headers,
            read_header_line l _ hl, ih (l.stored :: header) fuel hls hf]
          simp

theorem header_block_length (ls : List HeaderLine) : ls.length ≤ (header_block ls).length := by
  induction ls with
  | nil => simp [header_block]
  | cons l ls ih =>
      simp only [header_block, HeaderLine.wire, List.length_cons, List.length_append,
        List.length_singleton, List.length_nil]
      omega

theorem lookup_header_append_miss (a b : List HTTPheader) (q : List Nat)
    (ha : ∀ h ∈ a, ¬ same_name h.name q) :
    lookup_header (a ++ b) q = lookup_header b q := by
  induction a with
  | nil => rfl
  | cons h t ih =>
      have hh : strcasecmp_eq h.name q = false := by
        have := ha h (by simp)
        simpa [same_name, strcasecmp_eq] using this
      have ht : ∀ x ∈ t, ¬ same_name x.name q := fun x hx => ha x (by simp [hx])
      simp [lookup_header, hh, ih ht]

theorem lookup_header_hit (h : HTTPheader) (t : List HTTPheader) (q : List Nat)
    (hq : same_name h.name q) :
    lookup_header (h :: t) q = some h.value := by
  have hh : strcasecmp_eq h.name q = true := by
    simpa [same_name, strcasecmp_eq] using hq
  simp [lookup_header, hh]

theorem lookup_header_miss (a : List HTTPheader) (q : List Nat)
    (ha : ∀ h ∈ a, ¬ same_name h.name q) :
    lookup_header a q = none := by
  have := lookup_header_append_miss a [] q ha
  simpa [lookup_header] using this

/-- In the list built from the block `before ++ l :: after`, a name that
equals the name of `l` and of no line of `after` finds the value of `l`. -/
theorem lookup_header_last (before after : List HeaderLine) (l : HeaderLine) (q : List Nat)
    (hl : same_name l.name q)
    (hafter : ∀ x ∈ after, ¬ same_name x.name q) :
    lookup_header (((before ++ l :: after).map HeaderLine.stored).reverse) q
      = some (l.value ++ l.eol) := by
  have hrev : ((before ++ l :: after).map HeaderLine.stored).reverse
      = (after.map HeaderLine.stored).reverse
        ++ (l.stored :: (before.map HeaderLine.stored).reverse) := by
    simp
  rw [hrev, lookup_header_append_miss, lookup_header_hit]
  · rfl
  · exact hl
  · intro h hh
    simp only [List.mem_reverse, List.mem_map] at hh
    obtain ⟨x, hx, rfl⟩ := hh
    exact hafter x hx

theorem same_name_symm (a b : List Nat) (h : same_name a b) : same_name b a := by
  unfold same_name at h ⊢
  exact h.symm

theorem same_name_trans (a b c : List Nat) (h1 : same_name a b) (h2 : same_name b c) :
    same_name a c := by
  unfold same_name at h1 h2 ⊢
  exact h1.trans h2

/-- `readreq` on a valid request line followed by a well-formed header block
and the empty line: what is left to decide is the body. -/
theorem readreq_block (method path minor : List Nat) (ls : List HeaderLine)
    (blank tail : List Nat)
    (hline : valid_request_line method path minor)
    (hwf : ∀ l ∈ ls, l.well_formed)
    (hb : blank = bytes "\r\n" ∨ blank = bytes "\n") :
    readreq (request_line method path minor ++ header_block ls ++ blank ++ tail)
      = (match content_length ((ls.map HeaderLine.stored).reverse) with
         | .error e => .error e
         | .ok length =>
             if length ≠ 0 then
               if length > MAX_REQUEST_BODY_LENGTH then .error .body_too_large
               else if tail.length < length.toNat then .error .body_read
               else
                 .ok ({ protocol_minor_version := atoi (minor ++ bytes "\r\n"),
                        method := upcase method, path := path,
                        header := (ls.map HeaderLine.stored).reverse,
                        body := some (tail.take length.toNat), length := length },
                      tail.drop length.toNat)
             else
               .ok ({ protocol_minor_version := atoi (minor ++ bytes "\r\n"),
                      method := upcase method, path := path,
                      header := (ls.map HeaderLine.stored).reverse,
                      body := none, length := length },
                    tail)) := by
  have hshape : request_line method path minor ++ header_block ls ++ blank ++ tail
      = request_line method path minor ++ (header_block ls ++ (blank ++ tail)) := by
    simp only [List.append_assoc]
  have hfuel : ls.length < (header_block ls ++ (blank ++ tail)).length + 1 := by
    have := header_block_length ls
    simp only [List.length_append]
    omega
  have hhdr := read_headers_block ls blank tail [] _ hwf hb hfuel
  rw [List.append_nil] at hhdr
  unfold readreq
  rw [hshape, readreq_line_valid method path minor _ hline]
  simp only [hhdr]

/-! ## The request parser: C5 to C10 -/

/-- C5. For a valid request line `METHOD SP PATH SP HTTP/1.<n> CRLF` (method
and path without blank, newline or NUL, digits for `n`, the whole line within
the line buffer), `readreq_line` succeeds, consumes exactly that line, stores
the path as sent and stores as method the byte-wise `toupper` of the token
sent: it has the same length, holds no lower-case ASCII letter, and equals the
token sent under `strcasecmp`. -/
theorem readreq_line_upcases_method (method path minor rest : List Nat)
    (h : valid_request_line method path minor) :
    readreq_line (request_line method path minor ++ rest)
        = .ok ({ method := upcase method, path := path,
                 protocol_minor_version := atoi (minor ++ bytes "\r\n") }, rest)
    ∧ (upcase method).length = method.length
    ∧ (∀ c ∈ upcase method, islower c = false)
    ∧ strcasecmp_eq (upcase method) method = true := by
  refine ⟨readreq_line_valid method path minor rest h, by simp [upcase], ?_,
    strcasecmp_eq_upcase method⟩
  intro c hc
  simp only [upcase, List.mem_map] at hc
  obtain ⟨x, _, rfl⟩ := hc
  exact islower_toupper x

/-- C5, at the line `Get /index.html HTTP/1.1`. -/
theorem readreq_line_upcases_method_witness :
    valid_request_line (bytes "Get") (bytes "/index.html") (bytes "1")
    ∧ readreq_line (request_line (bytes "Get") (bytes "/index.html") (bytes "1")
        ++ bytes "Host: x\r\n\r\n")
        = .ok ({ method := upcase (bytes "Get"), path := bytes "/index.html",
                 protocol_minor_version := atoi (bytes "1" ++ bytes "\r\n") },
               bytes "Host: x\r\n\r\n")
    ∧ upcase (bytes "Get") = bytes "GET" :=
  ⟨by decide,
   (readreq_line_upcases_method (bytes "Get") (bytes "/index.html") (bytes "1")
      (bytes "Host: x\r\n\r\n") (by decide)).1,
   by decide⟩

/-- C6. Let a valid request line be followed by a block of well-formed header
lines whose names differ pairwise up to ASCII case, then the empty line.  In
the request `readreq` returns, `lookup_header` with any name equal up to case
to the name of a line of the block gives the text of that line after the
colon, without its leading blanks and tabs and with its line terminator still
attached; with a name equal up to case to no name of the block it gives
NULL. -/
theorem lookup_header_any_case (method path minor : List Nat) (ls : List HeaderLine)
    (blank tail rest : List Nat) (req : HTTPreq)
    (hline : valid_request_line method path minor)
    (hwf : ∀ l ∈ ls, l.well_formed)
    (hb : blank = bytes "\r\n" ∨ blank = bytes "\n")
    (hdistinct : ls.Pairwise (fun a b => ¬ same_name a.name b.name))
    (hreq : readreq (request_line method path minor ++ header_block ls ++ blank ++ tail)
      = .ok (req, rest)) :
    (∀ l ∈ ls, ∀ q, same_name q l.name → lookup_header req.header q = some (l.value ++ l.eol))
    ∧ (∀ q, (∀ l ∈ ls, ¬ same_name q l.name) → lookup_header req.header q = none) := by
  have hheader : req.header = (ls.map HeaderLine.stored).reverse := by
    rw [readreq_block method path minor ls blank tail hline hwf hb] at hreq
    split at hreq
    · simp at hreq
    · split_ifs at hreq <;> simp only [Except.ok.injEq, Prod.mk.injEq, reduceCtorEq] at hreq
      · rw [← hreq.1]
      · rw [← hreq.1]
  rw [hheader]
  constructor
  · intro l hl q hq
    obtain ⟨before, after, rfl⟩ := List.append_of_mem hl
    rw [List.pairwise_append] at hdistinct
    have hafter : ∀ x ∈ after, ¬ same_name x.name q := by
      intro x hx hxq
      have hlx := (List.pairwise_cons.mp hdistinct.2.1).1 x hx
      exact hlx (same_name_symm _ _ (same_name_trans _ _ _ hxq hq))
    exact lookup_header_last before after l q (same_name_symm _ _ hq) hafter
  · intro q hq
    apply lookup_header_miss
    intro h hh
    simp only [List.mem_reverse, List.mem_map] at hh
    obtain ⟨x, hx, rfl⟩ := hh
    intro hxq
    exact hq x hx (same_name_symm _ _ hxq)

/-- C6, at the block `Host: example.org`, `Accept: text/plain`: the names
`HOST` and `accept` find the two values, the name `Cookie` finds nothing. -/
theorem lookup_header_any_case_witness :
    lookup_header [demo_accept.stored, demo_host.stored] (bytes "HOST")
        = some (bytes "example.org\r\n")
    ∧ lookup_header [demo_accept.stored, demo_host.stored] (bytes "accept")
        = some (bytes "text/plain\n")
    ∧ lookup_header [demo_accept.stored, demo_host.stored] (bytes "Cookie") = none :=
  have h := lookup_header_any_case (bytes "GET") (bytes "/") (bytes "0")
    [demo_host, demo_accept] (bytes "\r\n") (bytes "rest") (bytes "rest")
    { protocol_minor_version := 0, method := bytes "GET", path := bytes "/",
      header := [demo_accept.stored, demo_host.stored], body := none, length := 0 }
    (by decide) (by decide) (by decide) (by decide) rfl
  ⟨h.1 demo_host (by decide) (bytes "HOST") (by decide),
   h.1 demo_accept (by decide) (bytes "accept") (by decide),
   h.2 (bytes "Cookie") (by decide)⟩

/-- C7. Let a valid request line be followed by a block of well-formed header
lines in which a line `first` is followed, later, by a line `last` with the
same name up to ASCII case, and no line after `last` has that name.  In the
request `readreq` returns, `lookup_header` with that name gives the value of
`last` (with its line terminator), whatever stands before. -/
theorem lookup_header_duplicate_gives_last (method path minor : List Nat)
    (before middle after : List HeaderLine) (first last : HeaderLine) (q : List Nat)
    (blank tail rest : List Nat) (req : HTTPreq)
    (hline : valid_request_line method path minor)
    (hwf : ∀ l ∈ before ++ first :: (middle ++ last :: after), l.well_formed)
    (hb : blank = bytes "\r\n" ∨ blank = bytes "\n")
    (_hfirst : same_name first.name q)
    (hlast : same_name last.name q)
    (hafter : ∀ x ∈ after, ¬ same_name x.name q)
    (hreq : readreq (request_line method path minor
        ++ header_block (before ++ first :: (middle ++ last :: after)) ++ blank ++ tail)
      = .ok (req, rest)) :
    lookup_header req.header q = some (last.value ++ last.eol) := by
  have hheader : req.header
      = ((before ++ first :: (middle ++ last :: after)).map HeaderLine.stored).reverse := by
    rw [readreq_block method path minor _ blank tail hline hwf hb] at hreq
    split at hreq
    · simp at hreq
    · split_ifs at hreq <;> simp only [Except.ok.injEq, Prod.mk.injEq, reduceCtorEq] at hreq
      · rw [← hreq.1]
      · rw [← hreq.1]
  have hshape : before ++ first :: (middle ++ last :: after)
      = (before ++ first :: middle) ++ last :: after := by simp
  rw [hheader, hshape]
  exact lookup_header_last _ after last q hlast hafter

/-- C7, at the block `X: 1`, `Host: example.org`, `x: 2`: the name `X` finds
the value of the line `x: 2`. -/
theorem lookup_header_duplicate_gives_last_witness :
    lookup_header [demo_x2.stored, demo_host.stored, demo_x1.stored] (bytes "X")
      = some (bytes "2\r\n") :=
  lookup_header_duplicate_gives_last (bytes "GET") (bytes "/") (bytes "0")
    [] [demo_host] [] demo_x1 demo_x2 (bytes "X") (bytes "\r\n") [] []
    { protocol_minor_version := 0, method := bytes "GET", path := bytes "/",
      header := [demo_x2.stored, demo_host.stored, demo_x1.stored], body := none, length := 0 }
    (by decide) (by decide) (by decide) (by decide) (by decide) (by decide) rfl

/-- C8. Let a valid request line be followed by a well-formed header block
without any `Content-Length` line (up to case), the empty line, and any bytes
`tail`.  With that block, and with the same block into which one line
`Content-Length: 0` is put at any place, `readreq` returns a request of length 0
with a NULL body, and the input left is all of `tail`. -/
theorem content_length_zero_is_absent (method path minor : List Nat)
    (before after : List HeaderLine) (zero : HeaderLine) (blank tail : List Nat)
    (hline : valid_request_line method path minor)
    (hwf : ∀ l ∈ before ++ after, l.well_formed)
    (hzero : zero.well_formed)
    (hb : blank = bytes "\r\n" ∨ blank = bytes "\n")
    (hname : same_name zero.name (bytes "Content-Length"))
    (hvalue : zero.value = bytes "0")
    (habsent : ∀ l ∈ before ++ after, ¬ same_name l.name (bytes "Content-Length")) :
    readreq (request_line method path minor ++ header_block (before ++ after) ++ blank ++ tail)
        = .ok ({ protocol_minor_version := atoi (minor ++ bytes "\r\n"),
                 method := upcase method, path := path,
                 header := ((before ++ after).map HeaderLine.stored).reverse,
                 body := none, length := 0 }, tail)
    ∧ readreq (request_line method path minor ++ header_block (before ++ zero :: after)
          ++ blank ++ tail)
        = .ok ({ protocol_minor_version := atoi (minor ++ bytes "\r\n"),
                 method := upcase method, path := path,
                 header := ((before ++ zero :: after).map HeaderLine.stored).reverse,
                 body := none, length := 0 }, tail) := by
  have hwf2 : ∀ l ∈ before ++ zero :: after, l.well_formed := by
    intro l hl
    simp only [List.mem_append, List.mem_cons] at hl
    rcases hl with h | h | h
    · exact hwf l (by simp [h])
    · rw [h]; exact hzero
    · exact hwf l (by simp [h])
  have hc1 : content_length (((before ++ after).map HeaderLine.stored).reverse) = .ok 0 := by
    have : lookup_header (((before ++ after).map HeaderLine.stored).reverse)
        (bytes "Content-Length") = none := by
      apply lookup_header_miss
      intro h hh
      simp only [List.mem_reverse, List.mem_map] at hh
      obtain ⟨x, hx, rfl⟩ := hh
      exact habsent x hx
    unfold content_length
    rw [this]
  have hc2 : content_length (((before ++ zero :: after).map HeaderLine.stored).reverse)
      = .ok 0 := by
    have hl := lookup_header_last before after zero (bytes "Content-Length") hname
      (fun x hx => habsent x (by simp [hx]))
    have hz : atoi (zero.value ++ zero.eol) = 0 := by
      rw [hvalue]
      rcases hzero.2.2.2.2.2.1 with h | h <;> rw [h] <;> decide
    unfold content_length
    rw [hl]
    simp [hz]
  constructor
  · rw [readreq_block method path minor _ blank tail hline hwf hb, hc1]
    simp
  · rw [readreq_block method path minor _ blank tail hline hwf2 hb, hc2]
    simp

/-- C8, at a request with the header `Host` alone and with `content-length: 0`
put after it: both leave the bytes `abc` unread. -/
theorem content_length_zero_is_absent_witness :
    (∃ req, readreq (bytes "GET / HTTP/1.0\r\nHost: example.org\r\n\r\nabc")
        = .ok (req, bytes "abc") ∧ req.length = 0 ∧ req.body = none)
    ∧ (∃ req, readreq (bytes
          "GET / HTTP/1.0\r\nHost: example.org\r\ncontent-length: 0\r\n\r\nabc")
        = .ok (req, bytes "abc") ∧ req.length = 0 ∧ req.body = none) :=
  have h := content_length_zero_is_absent (bytes "GET") (bytes "/") (bytes "0")
    [demo_host] [] demo_length0 (bytes "\r\n") (bytes "abc")
    (by decide) (by decide) (by decide) (by decide) (by decide) (by decide) (by decide)
  ⟨⟨_, h.1, rfl, rfl⟩, ⟨_, h.2, rfl, rfl⟩⟩

theorem content_length_nonneg (header : List HTTPheader) (n : Int)
    (h : content_length header = .ok n) : 0 ≤ n := by
  unfold content_length at h
  split at h
  · simp only [Except.ok.injEq] at h
    omega
  · split_ifs at h with hneg
    simp only [Except.ok.injEq] at h
    omega

theorem content_length_out_of_bounds (header : List HTTPheader) (val : List Nat)
    (hval : lookup_header header (bytes "Content-Length") = some val) :
    content_length header
      = (if atoi val < 0 then .error .negative_content_length else .ok (atoi val)) := by
  unfold content_length
  rw [hval]

/-- C10. Whenever `readreq` returns a request: its length is at least 0 and at
most `MAX_REQUEST_BODY_LENGTH` (1048576); its body is not NULL exactly when the
length is positive; the length is what `content_length` computes from the
headers read; and the input left after the empty line that ends the headers is
the body (exactly `length` bytes) followed by the input left after `readreq`.
Whenever the `Content-Length` value found parses to a negative number or to a
number above the cap, `readreq` does not return: it ends in `err_log`. -/
theorem readreq_invariant (inp : List Nat) :
    (∀ req rest, readreq inp = .ok (req, rest) →
      0 ≤ req.length ∧ req.length ≤ MAX_REQUEST_BODY_LENGTH
      ∧ (req.body ≠ none ↔ 0 < req.length)
      ∧ ∃ line inp1 inp2,
          readreq_line inp = .ok (line, inp1)
          ∧ read_headers (inp1.length + 1) inp1 [] = .ok (req.header, inp2)
          ∧ content_length req.header = .ok req.length
          ∧ (∀ body, req.body = some body →
              body.length = req.length.toNat ∧ inp2 = body ++ rest)
          ∧ (req.body = none → inp2 = rest))
    ∧ (∀ line inp1 header inp2 val,
        readreq_line inp = .ok (line, inp1) →
        read_headers (inp1.length + 1) inp1 [] = .ok (header, inp2) →
        lookup_header header (bytes "Content-Length") = some val →
        (atoi val < 0 ∨ MAX_REQUEST_BODY_LENGTH < atoi val) →
        readreq inp = .error (if atoi val < 0 then Fatal.negative_content_length
                              else Fatal.body_too_large)) := by
  constructor
  · intro req rest h
    unfold readreq at h
    cases hl : readreq_line inp with
    | error e => simp [hl] at h
    | ok r1 =>
      obtain ⟨line, inp1⟩ := r1
      simp only [hl] at h
      cases hh : read_headers (inp1.length + 1) inp1 [] with
      | error e => simp [hh] at h
      | ok r2 =>
        obtain ⟨header, inp2⟩ := r2
        simp only [hh] at h
        cases hc : content_length header with
        | error e => simp [hc] at h
        | ok length =>
          simp only [hc] at h
          have hnn := content_length_nonneg header length hc
          split_ifs at h with h0 hcap hshort
          · simp only [Except.ok.injEq, Prod.mk.injEq] at h
            obtain ⟨hreq, hrest⟩ := h
            subst hreq
            have hlen : (inp2.take length.toNat).length = length.toNat := by
              rw [List.length_take]
              omega
            refine ⟨hnn, by simpa using hcap, ?_, line, inp1, inp2, rfl, hh, hc, ?_, ?_⟩
            · simp only [ne_eq, reduceCtorEq, not_false_eq_true, true_iff]
              omega
            · intro body hbody
              simp only [Option.some.injEq] at hbody
              subst hbody
              exact ⟨hlen, by rw [← hrest, List.take_append_drop]⟩
            · intro hnone
              simp at hnone
          · simp only [Except.ok.injEq, Prod.mk.injEq] at h
            obtain ⟨hreq, hrest⟩ := h
            subst hreq
            have hz : length = 0 := by simpa using h0
            subst hz
            have hmax : (0 : Int) ≤ MAX_REQUEST_BODY_LENGTH := by decide
            refine ⟨le_refl _, hmax, ?_, line, inp1, inp2, rfl, hh, hc, ?_, ?_⟩
            · simp
            · intro body hbody
              simp at hbody
            · intro _
              exact hrest
  · intro line inp1 header inp2 val hl hh hval hbad
    unfold readreq
    simp only [hl, hh, content_length_out_of_bounds header val hval]
    by_cases hneg : atoi val < 0
    · simp [hneg]
    · have hcap : MAX_REQUEST_BODY_LENGTH < atoi val := by
        rcases hbad with h | h
        · exact absurd h hneg
        · exact h
      have hne : atoi val ≠ 0 := by
        intro h0
        rw [h0] at hcap
        exact absurd hcap (by decide)
      simp [hneg, hne, hcap]

/-- C10, at a request with a body of three bytes out of six sent, at a declared
length of -1 and at a declared length of 1048577. -/
theorem readreq_invariant_witness :
    (∃ req, readreq (bytes "PUT /x HTTP/1.0\r\nContent-Length: 3\r\n\r\nabcdef")
        = .ok (req, bytes "def") ∧ req.length = 3 ∧ req.body = some (bytes "abc"))
    ∧ readreq (bytes "PUT /x HTTP/1.0\r\nContent-Length: -1\r\n\r\nabcdef")
        = .error Fatal.negative_content_length
    ∧ readreq (bytes "PUT /x HTTP/1.0\r\nContent-Length: 1048577\r\n\r\nabcdef")
        = .error Fatal.body_too_large :=
  ⟨⟨_, rfl, rfl, rfl⟩,
   (readreq_invariant (bytes "PUT /x HTTP/1.0\r\nContent-Length: -1\r\n\r\nabcdef")).2
     { method := bytes "PUT", path := bytes "/x", protocol_minor_version := 0 }
     (bytes "Content-Length: -1\r\n\r\nabcdef")
     [{ name := bytes "Content-Length", value := bytes "-1\r\n" }] (bytes "abcdef")
     (bytes "-1\r\n") rfl rfl rfl (by decide),
   (readreq_invariant (bytes "PUT /x HTTP/1.0\r\nContent-Length: 1048577\r\n\r\nabcdef")).2
     { method := bytes "PUT", path := bytes "/x", protocol_minor_version := 0 }
     (bytes "Content-Length: 1048577\r\n\r\nabcdef")
     [{ name := bytes "Content-Length", value := bytes "1048577\r\n" }] (bytes "abcdef")
     (bytes "1048577\r\n") rfl rfl rfl (by decide)⟩

theorem atoi_fmt_ld (n : Nat) (eol : List Nat) (hn : n < 2 ^ 31)
    (heol : eol = bytes "\r\n" ∨ eol = bytes "\n") :
    atoi (fmt_ld (n : Int) ++ eol) = n := by
  have hneg : ¬ ((n : Int) < 0) := by omega
  obtain ⟨ds, hds, hne, hdig, hval⟩ := fmt_digits_spec (n + 1) n [] (by omega)
  rw [List.append_nil] at hds
  have hfmt : fmt_ld (n : Int) = ds := by
    simp [fmt_ld, hneg, hds]
  have hstop : digits_value n eol = n := by
    rcases heol with h | h <;> rw [h] <;> rfl
  have hv : digits_value 0 (ds ++ eol) = n := by
    rw [hval 0 eol]
    simpa using hstop
  cases ds with
  | nil => exact absurd rfl hne
  | cons d ds2 =>
      have hd : isdigit d = true := hdig d (by simp)
      simp only [isdigit, Bool.and_eq_true, decide_eq_true_eq] at hd
      have hsp : isspace d = false := by
        simp only [isspace, Bool.or_eq_false_iff, beq_eq_false_iff_ne, ne_eq,
          Bool.and_eq_false_imp, decide_eq_true_eq, decide_eq_false_iff_not]
        omega
      have h45 : d ≠ 45 := by omega
      have h43 : d ≠ 43 := by omega
      rw [hfmt]
      unfold atoi strtol
      simp only [List.cons_append, List.dropWhile_cons, hsp, h45, h43, if_false,
        Bool.false_eq_true]
      rw [List.cons_append] at hv
      rw [hv]
      unfold long_to_int
      have hmin : min (2 ^ 63 - 1 : Int) (n : Int) = n := by
        apply min_eq_right
        have : (n : Int) < 2 ^ 31 := by exact_mod_cast hn
        omega
      rw [hmin]
      have h1 : (n : Int) < 2 ^ 31 := by exact_mod_cast hn
      omega

/-- Within the range of `int` the cap does what the specification says: with a
`Content-Length` line that is the last of its name and whose value is the
decimal text of `n < 2^31`, `readreq` returns a body-less request for `n = 0`,
ends in `err_log` for `n` above the cap or for fewer than `n` bytes left, and
else returns the next `n` bytes as the body (so `n = 1048576` is accepted). -/
theorem readreq_declared_length (method path minor : List Nat)
    (before after : List HeaderLine) (cl : HeaderLine) (blank tail : List Nat) (n : Nat)
    (hline : valid_request_line method path minor)
    (hwf : ∀ l ∈ before ++ cl :: after, l.well_formed)
    (hb : blank = bytes "\r\n" ∨ blank = bytes "\n")
    (hname : same_name cl.name (bytes "Content-Length"))
    (hafter : ∀ l ∈ after, ¬ same_name l.name (bytes "Content-Length"))
    (hvalue : cl.value = fmt_ld (n : Int))
    (hn : n < 2 ^ 31) :
    readreq (request_line method path minor ++ header_block (before ++ cl :: after)
        ++ blank ++ tail)
      = (if n = 0 then
           .ok ({ protocol_minor_version := atoi (minor ++ bytes "\r\n"),
                  method := upcase method, path := path,
                  header := ((before ++ cl :: after).map HeaderLine.stored).reverse,
                  body := none, length := 0 }, tail)
         else if 1048576 < n then .error .body_too_large
         else if tail.length < n then .error .body_read
         else
           .ok ({ protocol_minor_version := atoi (minor ++ bytes "\r\n"),
                  method := upcase method, path := path,
                  header := ((before ++ cl :: after).map HeaderLine.stored).reverse,
                  body := some (tail.take n), length := n }, tail.drop n)) := by
  have hcl : cl.well_formed := hwf cl (by simp)
  have hl := lookup_header_last before after cl (bytes "Content-Length") hname hafter
  have hat : atoi (cl.value ++ cl.eol) = n := by
    rw [hvalue]
    exact atoi_fmt_ld n cl.eol hn hcl.2.2.2.2.2.1
  have hc : content_length (((before ++ cl :: after).map HeaderLine.stored).reverse)
      = .ok (n : Int) := by
    rw [content_length_out_of_bounds _ _ hl, hat]
    have : ¬ ((n : Int) < 0) := by omega
    simp [this]
  rw [readreq_block method path minor _ blank tail hline hwf hb, hc]
  simp only [MAX_REQUEST_BODY_LENGTH, Int.toNat_ofNat]
  by_cases h0 : n = 0
  · subst h0
    simp
  · have h0i : (n : Int) ≠ 0 := by exact_mod_cast h0
    by_cases hcap : 1048576 < n
    · have hcapi : (n : Int) > 1024 * 1024 := by omega
      simp [h0, h0i, hcap, hcapi]
    · have hcapi : ¬ ((n : Int) > 1024 * 1024) := by omega
      simp [h0, h0i, hcap, hcapi]

/-- Nothing is written when `readreq` ends in `err_log`. -/
theorem service_fatal (sys : Sys) (inp docroot : List Nat) (e : Fatal)
    (h : readreq inp = .error e) :
    service sys inp docroot = { out := [], fatal := some e } := by
  simp [service, h]

/-- C9. The request `GET /a.txt HTTP/1.0` with `Content-Length: 4294967296`
declares a length above the cap of 1048576, but `atoi` gives 0 for it:
`readreq` returns a request of length 0 that leaves the bytes after the empty
line unread, and `service` writes the whole 200 response. -/
theorem service_content_length_4294967296 :
    atoi (bytes "4294967296\r\n") = 0
    ∧ readreq (bytes "GET /a.txt HTTP/1.0\r\nContent-Length: 4294967296\r\n\r\nbody")
        = .ok ({ protocol_minor_version := 0, method := bytes "GET", path := bytes "/a.txt",
                 header := [{ name := bytes "Content-Length",
                              value := bytes "4294967296\r\n" }],
                 body := none, length := 0 }, bytes "body")
    ∧ service demo_sys
          (bytes "GET /a.txt HTTP/1.0\r\nContent-Length: 4294967296\r\n\r\nbody") (bytes "/srv")
        = { out := output_common_header demo_sys (bytes "200 OK")
              ++ bytes "Content-Length: 5\r\n"
              ++ bytes "Content-Type: text/plain\r\n"
              ++ bytes "\r\n"
              ++ bytes "hello",
            fatal := none } := by
  refine ⟨by decide, rfl, by decide⟩

/-! ## The file resolver and the dispatcher: C13, C17 -/

/-- C13. `get_fileinfo` returns for every docroot and path: the path returned
is the docroot, one `/`, and the request path, byte for byte (so its length is
the two lengths plus one); `ok` is true exactly when `lstat` succeeds on that
path and reports a regular file, and then `size` is the size `lstat` reported;
when `lstat` fails, or reports a directory or a symbolic link, `ok` is
false. -/
theorem get_fileinfo_spec (sys : Sys) (docroot urlpath : List Nat) :
    (get_fileinfo sys docroot urlpath).path = docroot ++ [47] ++ urlpath
    ∧ (get_fileinfo sys docroot urlpath).path.length = docroot.length + 1 + urlpath.length
    ∧ ((get_fileinfo sys docroot urlpath).ok = true
        ↔ ∃ st, sys.lstat (docroot ++ [47] ++ urlpath) = some st
            ∧ st.st_mode = FileKind.regular)
    ∧ (∀ st, sys.lstat (docroot ++ [47] ++ urlpath) = some st → st.st_mode = FileKind.regular →
        (get_fileinfo sys docroot urlpath).size = st.st_size)
    ∧ (sys.lstat (docroot ++ [47] ++ urlpath) = none →
        (get_fileinfo sys docroot urlpath).ok = false)
    ∧ (∀ st, sys.lstat (docroot ++ [47] ++ urlpath) = some st →
        st.st_mode = FileKind.directory ∨ st.st_mode = FileKind.symlink →
        (get_fileinfo sys docroot urlpath).ok = false) := by
  have hp : build_filepath docroot urlpath = docroot ++ [47] ++ urlpath := rfl
  have hpath : (get_fileinfo sys docroot urlpath).path = docroot ++ [47] ++ urlpath := by
    unfold get_fileinfo
    rw [hp]
    cases sys.lstat (docroot ++ [47] ++ urlpath) with
    | none => rfl
    | some st => by_cases h : st.st_mode = FileKind.regular <;> simp [h]
  refine ⟨hpath, ?_, ?_, ?_, ?_, ?_⟩
  · rw [hpath]
    simp only [List.length_append, List.length_singleton]
  · unfold get_fileinfo
    rw [hp]
    cases sys.lstat (docroot ++ [47] ++ urlpath) with
    | none => simp
    | some st => by_cases h : st.st_mode = FileKind.regular <;> simp [h]
  · intro st hst hreg
    rw [get_fileinfo_regular sys docroot urlpath st (by rw [hp]; exact hst) hreg]
  · intro hnone
    apply get_fileinfo_not_regular
    intro st hst
    rw [hp, hnone] at hst
    cases hst
  · intro st hst hkind
    apply get_fileinfo_not_regular
    intro st2 hst2
    rw [hp, hst] at hst2
    cases hst2
    rcases hkind with h | h <;> rw [h] <;> decide

/-- C17. `respond_to` reads nothing of the request but its method and its
path: two requests with the same method and the same path get the same output
and the same end of run, whatever their minor versions, header lists, bodies
and lengths, in every world and for every docroot; so do two inputs that
`readreq` turns into such requests.  The output always starts with
`HTTP/1.0 `. -/
theorem respond_to_depends_on_method_and_path (sys : Sys) (docroot : List Nat)
    (req1 req2 : HTTPreq) (inp1 inp2 rest1 rest2 : List Nat)
    (hmethod : req1.method = req2.method) (hpath : req1.path = req2.path)
    (h1 : readreq inp1 = .ok (req1, rest1)) (h2 : readreq inp2 = .ok (req2, rest2)) :
    respond_to sys req1 docroot = respond_to sys req2 docroot
    ∧ service sys inp1 docroot = service sys inp2 docroot
    ∧ ∃ tail, (service sys inp1 docroot).out = bytes "HTTP/1.0 " ++ tail := by
  have hr : respond_to sys req1 docroot = respond_to sys req2 docroot := by
    simp only [respond_to, file_response, method_not_allowed, not_implemented, not_found,
      hmethod, hpath]
  have hs1 : service sys inp1 docroot = respond_to sys req1 docroot := by
    simp [service, h1]
  have hs2 : service sys inp2 docroot = respond_to sys req2 docroot := by
    simp [service, h2]
  refine ⟨hr, by rw [hs1, hs2, hr], ?_⟩
  rw [hs1]
  simp only [respond_to, file_response, method_not_allowed, not_implemented, not_found,
    output_common_header_status_line]
  split_ifs
  all_goals first
    | exact ⟨_, by simp only [List.append_assoc]; exact rfl⟩
    | (split <;> exact ⟨_, by simp only [List.append_assoc]; exact rfl⟩)

/-- C17, at two requests for `/a.txt` that differ in case of the method, minor
version, headers and body. -/
theorem respond_to_depends_on_method_and_path_witness :
    service demo_sys (bytes "GET /a.txt HTTP/1.0\r\n\r\n") (bytes "/srv")
      = service demo_sys
          (bytes "get /a.txt HTTP/1.9\r\nHost: x\r\nContent-Length: 3\r\n\r\nabc") (bytes "/srv") :=
  (respond_to_depends_on_method_and_path demo_sys (bytes "/srv")
    { protocol_minor_version := 0, method := bytes "GET", path := bytes "/a.txt",
      header := [], body := none, length := 0 }
    { protocol_minor_version := 9, method := bytes "GET", path := bytes "/a.txt",
      header := [{ name := bytes "Content-Length", value := bytes "3\r\n" },
                 { name := bytes "Host", value := bytes "x\r\n" }],
      body := some (bytes "abc"), length := 3 }
    (bytes "GET /a.txt HTTP/1.0\r\n\r\n")
    (bytes "get /a.txt HTTP/1.9\r\nHost: x\r\nContent-Length: 3\r\n\r\nabc") [] []
    rfl rfl rfl rfl).2.1

/-! ## The request parser: C14, C15, C16 -/

theorem dropWhile_append_stop (p : Nat → Bool) (a : List Nat) (x : Nat) (hx : p x = false) :
    (a ++ [x]).dropWhile p = a.dropWhile p ++ [x] := by
  induction a with
  | nil => simp [List.dropWhile_cons, hx]
  | cons c cs ih =>
      by_cases hc : p c = true
      · simp [List.dropWhile_cons, hc, ih]
      · simp [List.dropWhile_cons, hc]

/-- C15. Let a valid request line be followed by a block of `k` well-formed
header lines and the empty line.  In the request `readreq` returns, the header
list is the list of the nodes of these lines in reverse order: it has `k`
entries, and entry `i` from the head (counting from 0) is the node of line
`k - 1 - i` of the block. -/
theorem header_list_is_reversed_block (method path minor : List Nat) (ls : List HeaderLine)
    (blank tail rest : List Nat) (req : HTTPreq)
    (hline : valid_request_line method path minor)
    (hwf : ∀ l ∈ ls, l.well_formed)
    (hb : blank = bytes "\r\n" ∨ blank = bytes "\n")
    (hreq : readreq (request_line method path minor ++ header_block ls ++ blank ++ tail)
      = .ok (req, rest)) :
    req.header = (ls.map HeaderLine.stored).reverse
    ∧ req.header.length = ls.length
    ∧ ∀ i, i < ls.length →
        req.header[i]? = (ls[ls.length - 1 - i]?).map HeaderLine.stored := by
  have hheader : req.header = (ls.map HeaderLine.stored).reverse := by
    rw [readreq_block method path minor ls blank tail hline hwf hb] at hreq
    split at hreq
    · simp at hreq
    · split_ifs at hreq <;> simp only [Except.ok.injEq, Prod.mk.injEq, reduceCtorEq] at hreq
      · rw [← hreq.1]
      · rw [← hreq.1]
  refine ⟨hheader, by rw [hheader]; simp, ?_⟩
  intro i hi
  rw [hheader, List.getElem?_reverse (by simpa using hi)]
  simp

/-- C15, at the block `Host`, `Accept`, `X: 1`: the list is `X`, `Accept`,
`Host`. -/
theorem header_list_is_reversed_block_witness :
    readreq (bytes "GET / HTTP/1.0\r\nHost: example.org\r\nAccept:\t text/plain\nX: 1\r\n\r\nabc")
        = .ok ({ protocol_minor_version := 0, method := bytes "GET", path := bytes "/",
                 header := [demo_x1.stored, demo_accept.stored, demo_host.stored],
                 body := none, length := 0 }, bytes "abc")
    ∧ [demo_x1.stored, demo_accept.stored, demo_host.stored]
        = ([demo_host, demo_accept, demo_x1].map HeaderLine.stored).reverse
    ∧ [demo_x1.stored, demo_accept.stored, demo_host.stored].length = 3 :=
  have h := header_list_is_reversed_block (bytes "GET") (bytes "/") (bytes "0")
    [demo_host, demo_accept, demo_x1] (bytes "\r\n") (bytes "abc") (bytes "abc")
    { protocol_minor_version := 0, method := bytes "GET", path := bytes "/",
      header := [demo_x1.stored, demo_accept.stored, demo_host.stored],
      body := none, length := 0 }
    (by decide) (by decide) (by decide) rfl
  ⟨rfl, h.1, h.2.1⟩

/-- C16, as the claim states it, at the header `Content-Length: -5`: the value
parses to -5, and `content_length` does not give -5 back: it ends the run in
`err_log`, and so does `readreq` on a request with that header. -/
theorem content_length_negative_counterexample :
    lookup_header [{ name := bytes "Content-Length", value := bytes "-5\r\n" }]
        (bytes "Content-Length") = some (bytes "-5\r\n")
    ∧ atoi (bytes "-5\r\n") = -5
    ∧ content_length [{ name := bytes "Content-Length", value := bytes "-5\r\n" }]
        ≠ .ok (-5)
    ∧ content_length [{ name := bytes "Content-Length", value := bytes "-5\r\n" }]
        = .error Fatal.negative_content_length
    ∧ readreq (bytes "GET / HTTP/1.0\r\nContent-Length: -5\r\n\r\n")
        = .error Fatal.negative_content_length := by
  refine ⟨by decide, by decide, ?_, rfl, rfl⟩
  intro h
  have h2 : content_length [{ name := bytes "Content-Length", value := bytes "-5\r\n" }]
      = .error Fatal.negative_content_length := rfl
  rw [h2] at h
  cases h

/-- C16, amended. When the value of the `Content-Length` header parses to a
negative integer, the rejection takes effect before the value is used:
`content_length` ends the run in `err_log` and returns no length; `readreq`
on an input whose headers are these returns no request, and `service` writes
nothing. -/
theorem content_length_negative_is_fatal (header : List HTTPheader) (val : List Nat)
    (hval : lookup_header header (bytes "Content-Length") = some val)
    (hneg : atoi val < 0) :
    content_length header = .error Fatal.negative_content_length
    ∧ (∀ n, content_length header ≠ .ok n)
    ∧ ∀ (sys : Sys) (docroot inp inp1 inp2 : List Nat) (line : RequestLine),
        readreq_line inp = .ok (line, inp1) →
        read_headers (inp1.length + 1) inp1 [] = .ok (header, inp2) →
        readreq inp = .error Fatal.negative_content_length
        ∧ service sys inp docroot = { out := [], fatal := some Fatal.negative_content_length } := by
  have hc : content_length header = .error Fatal.negative_content_length := by
    rw [content_length_out_of_bounds header val hval, if_pos hneg]
  refine ⟨hc, ?_, ?_⟩
  · intro n hn
    rw [hc] at hn
    cases hn
  · intro sys docroot inp inp1 inp2 line hl hh
    have hr : readreq inp = .error Fatal.negative_content_length := by
      unfold readreq
      simp only [hl, hh, hc]
    exact ⟨hr, service_fatal sys inp docroot _ hr⟩

/-- C16 amended, at the request `GET / HTTP/1.0` with `Content-Length: -5`. -/
theorem content_length_negative_is_fatal_witness :
    service demo_sys (bytes "GET / HTTP/1.0\r\nContent-Length: -5\r\n\r\n") (bytes "/srv")
      = { out := [], fatal := some Fatal.negative_content_length } :=
  ((content_length_negative_is_fatal
      [{ name := bytes "Content-Length", value := bytes "-5\r\n" }] (bytes "-5\r\n")
      (by decide) (by decide)).2.2 demo_sys (bytes "/srv")
      (bytes "GET / HTTP/1.0\r\nContent-Length: -5\r\n\r\n")
      (bytes "Content-Length: -5\r\n\r\n") []
      { method := bytes "GET", path := bytes "/", protocol_minor_version := 0 }
      rfl rfl).2

/-- C14. Take a line of input: bytes `body` without newline or NUL, then the
newline, within the line buffer.  If `body` is empty or is a lone CR (the line
is just `\n` or `\r\n`), `read_header` returns NULL: the header block ends and
no header is made.  Otherwise, if `body` holds no colon, `read_header` ends the
run in `err_log`.  Otherwise, with `name` the bytes before the first colon and
`after` the bytes after it, `read_header` returns the node whose name is `name`
unchanged and whose value is `after` without its leading blanks and tabs,
followed by the newline (a CR before the newline is the last byte of `after`
and stays as well). -/
theorem read_header_splits_at_colon (body rest : List Nat)
    (hbody : ∀ c ∈ body, c ≠ 10 ∧ c ≠ 0)
    (hlen : body.length + 1 ≤ LINE_BUF_SIZE - 1) :
    ((body = [] ∨ body = [13]) → read_header (body ++ 10 :: rest) = .ok (none, rest))
    ∧ (body ≠ [] → body ≠ [13] → 58 ∉ body →
        read_header (body ++ 10 :: rest) = .error Fatal.header_no_colon)
    ∧ (∀ name after, body = name ++ 58 :: after → 58 ∉ name →
        read_header (body ++ 10 :: rest)
          = .ok (some { name := name,
                        value := after.dropWhile (fun c => c == 32 || c == 9) ++ [10] },
                 rest)) := by
  have hfg := fgets_newline body rest (fun c hc => (hbody c hc).1) hlen
  have hcs : c_str (body ++ [10]) = body ++ [10] := by
    apply c_str_eq_self
    intro c hc
    rw [List.mem_append] at hc
    rcases hc with hc | hc
    · exact (hbody c hc).2
    · simp at hc; omega
  have hcrlf : bytes "\r\n" = [13, 10] := by decide
  have hhead : body ≠ [] → ¬ ((body ++ [10]).head? = some 10) := by
    intro hne
    cases hb : body with
    | nil => exact absurd hb hne
    | cons x xs =>
        have := (hbody x (by simp [hb])).1
        simpa using this
  have hcmp : body ≠ [13] → strcmp_eq (body ++ [10]) (bytes "\r\n") = false := by
    intro hne
    rw [hcrlf]
    simp only [strcmp_eq, beq_eq_false_iff_ne, ne_eq]
    intro heq
    apply hne
    have h2 : body ++ [10] = [13] ++ [10] := by simpa using heq
    exact List.append_cancel_right h2
  refine ⟨?_, ?_, ?_⟩
  · intro h
    unfold read_header
    rw [hfg]
    rcases h with h | h <;> subst h <;> rfl
  · intro hne hcr hcolon
    unfold read_header
    rw [hfg]
    simp only [hcs, hcmp hcr, Bool.or_false]
    rw [if_neg (by simpa using hhead hne)]
    have hnone : strchr (body ++ [10]) 58 = none := by
      apply strchr_none
      intro x hx
      rw [List.mem_append] at hx
      rcases hx with hx | hx
      · intro h58
        exact hcolon (h58 ▸ hx)
      · simp at hx; omega
    simp only [hnone]
  · intro name after hsplit hname
    have hne : body ≠ [] := by
      rw [hsplit]
      simp
    have hcr : body ≠ [13] := by
      intro h13
      have hmem : (58 : Nat) ∈ body := by rw [hsplit]; simp
      rw [h13] at hmem
      simp at hmem
    have hshape : body ++ [10] = name ++ 58 :: (after ++ [10]) := by
      rw [hsplit]
      simp
    have hsome : strchr (body ++ [10]) 58 = some (name, after ++ [10]) := by
      rw [hshape]
      apply strchr_append
      intro x hx h58
      exact hname (h58 ▸ hx)
    have hskip : skip_blanks (after ++ [10])
        = after.dropWhile (fun c => c == 32 || c == 9) ++ [10] := by
      unfold skip_blanks
      exact dropWhile_append_stop _ after 10 (by decide)
    unfold read_header
    rw [hfg]
    simp only [hcs, hcmp hcr, Bool.or_false]
    rw [if_neg (by simpa using hhead hne)]
    simp only [hsome, hskip]

/-- C14, at the lines `Host:` blank tab `example.org` CR LF, `no colon` LF,
and CR LF. -/
theorem read_header_splits_at_colon_witness :
    read_header (bytes "Host: \texample.org\r" ++ 10 :: bytes "rest")
        = .ok (some { name := bytes "Host", value := bytes "example.org\r\n" }, bytes "rest")
    ∧ read_header (bytes "no colon" ++ 10 :: bytes "rest") = .error Fatal.header_no_colon
    ∧ read_header (bytes "\r" ++ 10 :: bytes "rest") = .ok (none, bytes "rest") :=
  ⟨(read_header_splits_at_colon (bytes "Host: \texample.org\r") (bytes "rest")
      (by decide) (by decide)).2.2 (bytes "Host") (bytes " \texample.org\r") rfl (by decide),
   (read_header_splits_at_colon (bytes "no colon") (bytes "rest")
      (by decide) (by decide)).2.1 (by decide) (by decide) (by decide),
   (read_header_splits_at_colon (bytes "\r") (bytes "rest")
      (by decide) (by decide)).1 (Or.inr rfl)⟩

/-! ## The request line: C12 -/

theorem strchr_eq (s : List Nat) (c : Nat) :
    strchr s c
      = (if c ∈ s then
           some (s.takeWhile (fun x => x != c), (s.dropWhile (fun x => x != c)).drop 1)
         else none) := by
  induction s with
  | nil => simp [strchr]
  | cons x xs ih =>
      by_cases hx : x = c
      · subst hx
        simp [strchr, List.takeWhile_cons, List.dropWhile_cons]
      · have hx2 : ¬ c = x := fun h => hx h.symm
        by_cases hmem : c ∈ xs
        · simp [strchr, hx, hx2, ih, hmem, List.takeWhile_cons, List.dropWhile_cons]
        · simp [strchr, hx, hx2, ih, hmem]

/-- C12. `readreq_line` looks at the line `fgets` stores (cut at a NUL) and at
the blank, byte 32, as the only delimiter.  It ends the run in `err_log` in
exactly four cases, tried in this order: there is no input left; the line holds
no blank; what follows the first blank holds no blank; what follows the second
blank does not start with `HTTP/1.` up to case.  In every other case it
returns, with the first field in upper case as method, the second field as
path, `atoi` of what follows `HTTP/1.` as minor version, and the input after
the line left to read. -/
theorem readreq_line_fails_iff (inp : List Nat) :
    readreq_line inp
        = (if inp = [] then .error Fatal.no_request_line
           else if 32 ∉ request_buffer inp then .error Fatal.request_line_1
           else if 32 ∉ after_blank (request_buffer inp) then .error Fatal.request_line_2
           else if ((after_blank (after_blank (request_buffer inp))).take 7).map tolower
                ≠ bytes "http/1." then .error Fatal.request_line_3
           else
             .ok ({ method := upcase (before_blank (request_buffer inp)),
                    path := before_blank (after_blank (request_buffer inp)),
                    protocol_minor_version :=
                      atoi ((after_blank (after_blank (request_buffer inp))).drop 7) },
                  (fgets_line (LINE_BUF_SIZE - 1) inp).2))
    ∧ ((∃ e, readreq_line inp = .error e)
        ↔ (inp = [] ∨ 32 ∉ request_buffer inp ∨ 32 ∉ after_blank (request_buffer inp)
            ∨ ((after_blank (after_blank (request_buffer inp))).take 7).map tolower
                ≠ bytes "http/1.")) := by
  have hmain : readreq_line inp
        = (if inp = [] then .error Fatal.no_request_line
           else if 32 ∉ request_buffer inp then .error Fatal.request_line_1
           else if 32 ∉ after_blank (request_buffer inp) then .error Fatal.request_line_2
           else if ((after_blank (after_blank (request_buffer inp))).take 7).map tolower
                ≠ bytes "http/1." then .error Fatal.request_line_3
           else
             .ok ({ method := upcase (before_blank (request_buffer inp)),
                    path := before_blank (after_blank (request_buffer inp)),
                    protocol_minor_version :=
                      atoi ((after_blank (after_blank (request_buffer inp))).drop 7) },
                  (fgets_line (LINE_BUF_SIZE - 1) inp).2)) := by
    cases hinp : inp with
    | nil => rfl
    | cons c cs =>
        have hfg : fgets LINE_BUF_SIZE (c :: cs)
            = some ((fgets_line (LINE_BUF_SIZE - 1) (c :: cs)).1,
                    (fgets_line (LINE_BUF_SIZE - 1) (c :: cs)).2) := rfl
        have h7 : (bytes "HTTP/1.").length = 7 := by decide
        have hlow : ((bytes "HTTP/1.").take 7).map tolower = bytes "http/1." := by decide
        unfold readreq_line
        rw [hfg, if_neg (by simp)]
        simp only [strchr_eq]
        simp only [request_buffer, before_blank, after_blank]
        generalize c_str (fgets_line (LINE_BUF_SIZE - 1) (c :: cs)).1 = buf
        by_cases h1 : 32 ∈ buf
        · rw [if_pos h1, if_neg (not_not.mpr h1)]
          simp only
          by_cases h2 : 32 ∈ List.drop 1 (List.dropWhile (fun x => x != 32) buf)
          · rw [if_pos h2, if_neg (not_not.mpr h2)]
            simp only [strncasecmp_eq, h7, hlow]
            by_cases h3 : (List.take 7 (List.drop 1 (List.dropWhile (fun x => x != 32)
                (List.drop 1 (List.dropWhile (fun x => x != 32) buf))))).map tolower
                = bytes "http/1."
            · simp [h3]
            · simp [h3]
          · rw [if_neg h2, if_pos h2]
        · rw [if_neg h1, if_pos h1]
  refine ⟨hmain, ?_⟩
  rw [hmain]
  constructor
  · rintro ⟨e, he⟩
    by_contra hcon
    simp only [not_or] at hcon
    obtain ⟨c1, c2, c3, c4⟩ := hcon
    rw [if_neg c1, if_neg c2, if_neg c3, if_neg c4] at he
    cases he
  · intro h
    by_cases c1 : inp = []
    · exact ⟨_, by rw [if_pos c1]⟩
    · by_cases c2 : 32 ∉ request_buffer inp
      · exact ⟨_, by rw [if_neg c1, if_pos c2]⟩
      · by_cases c3 : 32 ∉ after_blank (request_buffer inp)
        · exact ⟨_, by rw [if_neg c1, if_neg c2, if_pos c3]⟩
        · have c4 : ((after_blank (after_blank (request_buffer inp))).take 7).map tolower
              ≠ bytes "http/1." := by
            rcases h with h | h | h | h
            · exact absurd h c1
            · exact absurd h c2
            · exact absurd h c3
            · exact h
          exact ⟨_, by rw [if_neg c1, if_neg c2, if_neg c3, if_pos c4]⟩

/-- C12, at a line whose fields are set apart by tabs (no blank: the run ends)
and at the line `get /x http/1.1`. -/
theorem readreq_line_fails_iff_witness :
    (∃ e, readreq_line (bytes "GET\t/\tHTTP/1.0\r\n") = .error e)
    ∧ readreq_line (bytes "get /x http/1.1\r\nrest")
        = .ok ({ method := bytes "GET", path := bytes "/x", protocol_minor_version := 1 },
               bytes "rest") :=
  ⟨(readreq_line_fails_iff (bytes "GET\t/\tHTTP/1.0\r\n")).2.mpr (Or.inr (Or.inl (by decide))),
   (readreq_line_fails_iff (bytes "get /x http/1.1\r\nrest")).1.trans rfl⟩

/-! ## Lemmas on the shape of a response -/

theorem crlf_lines_append (a b : List (List Nat)) :
    crlf_lines (a ++ b) = crlf_lines a ++ crlf_lines b := by
  induction a with
  | nil => rfl
  | cons l ls ih => simp [crlf_lines, ih]

theorem output_common_header_lines (sys : Sys) (status : List Nat) :
    output_common_header sys status = crlf_lines (common_lines sys status) := by
  have h1 : bytes "Server: " ++ SERVER_NAME ++ bytes "/" ++ SERVER_VERSION
      = bytes "Server: sysproHTTP/1.0" := by decide
  have h2 : bytes "Connection: close\r\n" = bytes "Connection: close" ++ bytes "\r\n" := by
    decide
  rw [output_common_header_status_line, h1, h2]
  simp only [crlf_lines, common_lines, List.append_assoc, List.append_nil]

theorem read_head_line (l rest cur : List Nat) (lines : List (List Nat))
    (hl : ∀ c ∈ l, c ≠ 10) :
    read_head cur lines (l ++ 13 :: 10 :: rest)
      = (if l.reverse ++ cur = [] then some (lines.reverse, rest)
         else read_head [] ((l.reverse ++ cur).reverse :: lines) rest) := by
  induction l generalizing cur with
  | nil =>
      simp [read_head]
  | cons x xs ih =>
      have hx : x ≠ 10 := hl x (by simp)
      have hxs : ∀ c ∈ xs, c ≠ 10 := fun c hc => hl c (by simp [hc])
      have hstep : read_head cur lines ((x :: xs) ++ 13 :: 10 :: rest)
          = read_head (x :: cur) lines (xs ++ 13 :: 10 :: rest) := by
        rw [List.cons_append, read_head, if_neg (by simp [hx])]
      rw [hstep, ih (x :: cur) hxs]
      simp only [List.reverse_cons, List.append_assoc, List.singleton_append]

theorem read_head_lines (ls : List (List Nat)) (acc : List (List Nat)) (body : List Nat)
    (h : ∀ l ∈ ls, l ≠ [] ∧ ∀ c ∈ l, c ≠ 10) :
    read_head [] acc (crlf_lines ls ++ bytes "\r\n" ++ body) = some (acc.reverse ++ ls, body) := by
  have hcrlf : bytes "\r\n" = [13, 10] := by decide
  induction ls generalizing acc with
  | nil =>
      rw [hcrlf]
      simp [crlf_lines, read_head]
  | cons l ls ih =>
      have hl := h l (by simp)
      have hls : ∀ x ∈ ls, x ≠ [] ∧ ∀ c ∈ x, c ≠ 10 := fun x hx => h x (by simp [hx])
      have hshape : crlf_lines (l :: ls) ++ bytes "\r\n" ++ body
          = l ++ 13 :: 10 :: (crlf_lines ls ++ bytes "\r\n" ++ body) := by
        simp [crlf_lines, hcrlf]
      rw [hshape, read_head_line l _ [] acc hl.2]
      have hne : ¬ (l.reverse ++ [] = []) := by simpa using hl.1
      rw [if_neg hne, ih (_ :: acc) hls]
      simp

theorem file_response_out (sys : Sys) (req : HTTPreq) (docroot : List Nat) :
    (file_response sys req docroot).out
      = (if (get_fileinfo sys docroot req.path).ok = true then
           crlf_lines (common_lines sys (bytes "200 OK")
              ++ [bytes "Content-Length: " ++ fmt_ld (get_fileinfo sys docroot req.path).size,
                  bytes "Content-Type: text/plain"])
           ++ bytes "\r\n"
           ++ (if req.method = bytes "HEAD" then []
               else
                 match sys.open_read (build_filepath docroot req.path) with
                 | none => []
                 | some file => file)
         else
           crlf_lines (common_lines sys (bytes "404 Not Found")
              ++ [bytes "Content-Type: text/html"])
           ++ bytes "\r\n"
           ++ (if req.method = bytes "HEAD" then [] else html_404)) := by
  have hct : bytes "Content-Type: " ++ bytes "text/plain" = bytes "Content-Type: text/plain" := by
    decide
  have hhtml : bytes "Content-Type: text/html\r\n"
      = bytes "Content-Type: text/html" ++ bytes "\r\n" := by decide
  have hpath : (get_fileinfo sys docroot req.path).path = build_filepath docroot req.path := by
    unfold get_fileinfo
    cases sys.lstat (build_filepath docroot req.path) with
    | none => rfl
    | some st => by_cases h : st.st_mode = FileKind.regular <;> simp [h]
  by_cases hok : (get_fileinfo sys docroot req.path).ok = true
  · rw [if_pos hok]
    by_cases hhead : req.method = bytes "HEAD"
    · have hs : strcmp_eq req.method (bytes "HEAD") = true := by simpa [strcmp_eq] using hhead
      rw [if_pos hhead]
      simp only [file_response, hok, hs, if_true, guess_content_type,
        output_common_header_lines, crlf_lines_append, crlf_lines, Bool.not_true,
        Bool.false_eq_true, if_false]
      rw [← hct]
      simp only [List.append_assoc, List.append_nil]
    · have hs : strcmp_eq req.method (bytes "HEAD") = false := by simpa [strcmp_eq] using hhead
      rw [if_neg hhead]
      simp only [file_response, hok, hs, if_true, guess_content_type,
        output_common_header_lines, crlf_lines_append, crlf_lines, Bool.not_true,
        Bool.not_false, Bool.false_eq_true, if_false, hpath]
      rw [← hct]
      cases hop : sys.open_read (build_filepath docroot req.path) with
      | none => simp only [List.append_assoc, List.append_nil]
      | some file =>
          simp only [copy_blocks_fuel (file.length + 1) file (Nat.lt_succ_self _),
            List.append_assoc, List.append_nil]
  · rw [if_neg hok]
    have hok2 : (get_fileinfo sys docroot req.path).ok = false := by simpa using hok
    by_cases hhead : req.method = bytes "HEAD"
    · have hs : strcmp_eq req.method (bytes "HEAD") = true := by simpa [strcmp_eq] using hhead
      rw [if_pos hhead]
      simp only [file_response, hok2, not_found, hs, if_true, hhtml,
        output_common_header_lines, crlf_lines_append, crlf_lines, Bool.not_true,
        Bool.not_false, Bool.false_eq_true, if_false, List.append_assoc, List.append_nil]
    · have hs : strcmp_eq req.method (bytes "HEAD") = false := by simpa [strcmp_eq] using hhead
      rw [if_neg hhead]
      simp only [file_response, hok2, not_found, hs, if_true, hhtml, html_404,
        output_common_header_lines, crlf_lines_append, crlf_lines, Bool.not_true,
        Bool.not_false, Bool.false_eq_true, if_false, List.append_assoc, List.append_nil]

theorem method_not_allowed_out (sys : Sys) (req : HTTPreq) :
    method_not_allowed sys req
      = crlf_lines (common_lines sys (bytes "405 Method Not Allowed")
          ++ [bytes "Content-Type: text/html"])
        ++ bytes "\r\n" ++ html_405 req.method := by
  have hhtml : bytes "Content-Type: text/html\r\n"
      = bytes "Content-Type: text/html" ++ bytes "\r\n" := by decide
  simp only [method_not_allowed, html_405, hhtml, output_common_header_lines,
    crlf_lines_append, crlf_lines, List.append_assoc, List.append_nil]

theorem not_implemented_out (sys : Sys) (req : HTTPreq) :
    not_implemented sys req
      = crlf_lines (common_lines sys (bytes "501 Not Implemented")
          ++ [bytes "Content-type: text/html"])
        ++ bytes "\r\n" ++ html_501 req.method := by
  have hhtml : bytes "Content-type: text/html\r\n"
      = bytes "Content-type: text/html" ++ bytes "\r\n" := by decide
  simp only [not_implemented, html_501, hhtml, output_common_header_lines,
    crlf_lines_append, crlf_lines, List.append_assoc, List.append_nil]

theorem respond_to_shape (sys : Sys) (req : HTTPreq) (docroot : List Nat) :
    ∃ status extra body,
      (respond_to sys req docroot).out
        = crlf_lines (common_lines sys status ++ extra) ++ bytes "\r\n" ++ body
      ∧ response_case sys req docroot status extra body := by
  by_cases hfile : req.method = bytes "GET" ∨ req.method = bytes "HEAD"
  · have hr : respond_to sys req docroot = file_response sys req docroot := by
      rcases hfile with h | h
      · have h1 : strcmp_eq req.method (bytes "GET") = true := by rw [h]; decide
        simp only [respond_to, h1, if_true]
      · have h1 : strcmp_eq req.method (bytes "GET") = false := by rw [h]; decide
        have h2 : strcmp_eq req.method (bytes "HEAD") = true := by rw [h]; decide
        simp only [respond_to, h1, h2, if_true, Bool.false_eq_true, if_false]
    rw [hr, file_response_out]
    by_cases hok : (get_fileinfo sys docroot req.path).ok = true
    · rw [if_pos hok]
      refine ⟨_, _, _, rfl, Or.inl ⟨hfile, rfl, rfl, ?_, ?_⟩⟩
      · intro hh
        rw [if_pos hh]
      · by_cases hh : req.method = bytes "HEAD"
        · rw [if_pos hh]
          exact Or.inl rfl
        · rw [if_neg hh]
          cases hop : sys.open_read (build_filepath docroot req.path) with
          | none => exact Or.inl rfl
          | some file => exact Or.inr rfl
    · rw [if_neg hok]
      refine ⟨_, _, _, rfl, Or.inr (Or.inl ⟨hfile, rfl, rfl, ?_, ?_⟩)⟩
      · intro hh
        rw [if_pos hh]
      · by_cases hh : req.method = bytes "HEAD"
        · rw [if_pos hh]
          exact Or.inl rfl
        · rw [if_neg hh]
          exact Or.inr rfl
  · have hG : req.method ≠ bytes "GET" := fun h => hfile (Or.inl h)
    have hH : req.method ≠ bytes "HEAD" := fun h => hfile (Or.inr h)
    have h1 : strcmp_eq req.method (bytes "GET") = false := by simpa [strcmp_eq] using hG
    have h2 : strcmp_eq req.method (bytes "HEAD") = false := by simpa [strcmp_eq] using hH
    by_cases hP : req.method = bytes "POST"
    · have h3 : strcmp_eq req.method (bytes "POST") = true := by simpa [strcmp_eq] using hP
      have hr : (respond_to sys req docroot).out = method_not_allowed sys req := by
        simp only [respond_to, h1, h2, h3, if_true, Bool.false_eq_true, if_false]
      rw [hr, method_not_allowed_out]
      exact ⟨_, _, _, rfl, Or.inr (Or.inr (Or.inl ⟨hP, rfl, rfl, rfl⟩))⟩
    · have h3 : strcmp_eq req.method (bytes "POST") = false := by simpa [strcmp_eq] using hP
      have hr : (respond_to sys req docroot).out = not_implemented sys req := by
        simp only [respond_to, h1, h2, h3, Bool.false_eq_true, if_false]
      rw [hr, not_implemented_out]
      exact ⟨_, _, _, rfl, Or.inr (Or.inr (Or.inr ⟨hG, hH, hP, rfl, rfl, rfl⟩))⟩

theorem fmt_ld_no_newline (z : Int) : ∀ c ∈ fmt_ld z, c ≠ 10 ∧ c ≠ 13 := by
  have hdig : ∀ n : Nat, ∀ c ∈ fmt_digits (n + 1) n [], c ≠ 10 ∧ c ≠ 13 := by
    intro n c hc
    obtain ⟨ds, hds, _, hd, _⟩ := fmt_digits_spec (n + 1) n [] (Nat.lt_succ_self n)
    rw [hds, List.append_nil] at hc
    have := hd c hc
    simp only [isdigit, Bool.and_eq_true, decide_eq_true_eq] at this
    omega
  intro c hc
  unfold fmt_ld at hc
  split_ifs at hc
  · rw [List.mem_cons] at hc
    rcases hc with h | h
    · omega
    · exact hdig _ c h
  · exact hdig _ c hc

theorem takeWhile_stop (a b : List Nat) (ha : ∀ c ∈ a, c ≠ 13) :
    (a ++ 13 :: b).takeWhile (fun c => c != 13) = a := by
  induction a with
  | nil => simp [List.takeWhile_cons]
  | cons x xs ih =>
      have hx : x ≠ 13 := ha x (by simp)
      have hxs : ∀ c ∈ xs, c ≠ 13 := fun c hc => ha c (by simp [hc])
      simp [List.takeWhile_cons, hx, ih hxs]

/-- The lines of a response hold no newline when the date text holds none, and
no CR in the status line: a client reads back the lines that were written. -/
theorem respond_to_read_head (sys : Sys) (req : HTTPreq) (docroot : List Nat)
    (hdate : ∀ c ∈ sys.date, c ≠ 10) :
    ∃ status extra body,
      (respond_to sys req docroot).out
        = crlf_lines (common_lines sys status ++ extra) ++ bytes "\r\n" ++ body
      ∧ response_case sys req docroot status extra body
      ∧ read_head [] [] (respond_to sys req docroot).out
          = some (common_lines sys status ++ extra, body)
      ∧ status_line (respond_to sys req docroot).out = bytes "HTTP/1.0 " ++ status := by
  obtain ⟨status, extra, body, hout, hcase⟩ := respond_to_shape sys req docroot
  have hstatus : status = bytes "200 OK" ∨ status = bytes "404 Not Found"
      ∨ status = bytes "405 Method Not Allowed" ∨ status = bytes "501 Not Implemented" := by
    rcases hcase with h | h | h | h
    · exact Or.inl h.2.1
    · exact Or.inr (Or.inl h.2.1)
    · exact Or.inr (Or.inr (Or.inl h.2.1))
    · exact Or.inr (Or.inr (Or.inr h.2.2.2.1))
  have hst : ∀ c ∈ bytes "HTTP/1.0 " ++ status, c ≠ 10 ∧ c ≠ 13 := by
    rcases hstatus with h | h | h | h <;> rw [h] <;> decide
  have hextra : ∀ l ∈ extra, l ≠ [] ∧ ∀ c ∈ l, c ≠ 10 := by
    have hcl : ∀ z : Int, ∀ c ∈ bytes "Content-Length: " ++ fmt_ld z, c ≠ 10 := by
      intro z c hc
      rw [List.mem_append] at hc
      rcases hc with hc | hc
      · revert c
        decide
      · exact (fmt_ld_no_newline z c hc).1
    have hclne : ∀ z : Int, bytes "Content-Length: " ++ fmt_ld z ≠ [] := by
      intro z h
      have := congrArg List.length h
      simp only [List.length_append, List.length_nil] at this
      have h16 : (bytes "Content-Length: ").length = 16 := by decide
      omega
    intro l hl
    rcases hcase with h | h | h | h
    · rw [h.2.2.1] at hl
      simp only [List.mem_cons, List.mem_singleton, List.not_mem_nil, or_false] at hl
      rcases hl with hl | hl
      · rw [hl]
        exact ⟨hclne _, hcl _⟩
      · rw [hl]
        decide
    · rw [h.2.2.1] at hl
      simp only [List.mem_singleton] at hl
      rw [hl]
      decide
    · rw [h.2.2.1] at hl
      simp only [List.mem_singleton] at hl
      rw [hl]
      decide
    · rw [h.2.2.2.2.1] at hl
      simp only [List.mem_singleton] at hl
      rw [hl]
      decide
  have hlines : ∀ l ∈ common_lines sys status ++ extra, l ≠ [] ∧ ∀ c ∈ l, c ≠ 10 := by
    intro l hl
    rw [List.mem_append] at hl
    rcases hl with hl | hl
    · simp only [common_lines, List.mem_cons, List.mem_singleton, List.not_mem_nil,
        or_false] at hl
      rcases hl with hl | hl | hl | hl
      · rw [hl]
        refine ⟨by simp [bytes], fun c hc => (hst c hc).1⟩
      · rw [hl]
        refine ⟨by simp [bytes], ?_⟩
        intro c hc
        rw [List.mem_append] at hc
        rcases hc with hc | hc
        · revert c
          decide
        · exact hdate c hc
      · rw [hl]
        decide
      · rw [hl]
        decide
    · exact hextra l hl
  refine ⟨status, extra, body, hout, hcase, ?_, ?_⟩
  · rw [hout]
    have := read_head_lines (common_lines sys status ++ extra) [] body hlines
    simpa using this
  · rw [hout]
    have hcrlf : bytes "\r\n" = [13, 10] := by decide
    have hshape : crlf_lines (common_lines sys status ++ extra) ++ bytes "\r\n" ++ body
        = (bytes "HTTP/1.0 " ++ status)
          ++ 13 :: (10 :: (crlf_lines ([bytes "Date: " ++ sys.date,
                bytes "Server: sysproHTTP/1.0", bytes "Connection: close"] ++ extra)
              ++ bytes "\r\n" ++ body)) := by
      simp only [common_lines, List.cons_append, crlf_lines, hcrlf, List.append_assoc,
        List.singleton_append, List.nil_append]
    unfold status_line
    rw [hshape]
    exact takeWhile_stop _ _ (fun c hc => (hst c hc).2)

/-! ## The response writer: C11, C18 -/

/-- C11. Let the date text hold no newline (the format given to `strftime`
makes letters, digits, blanks, commas and colons).  Every output of
`respond_to` is: the status line `HTTP/1.0 <status>` with one of the four
statuses (`0` is what `%d` prints for `HTTP_MINOR_VERSION`), the `Date` line,
the `Server` line, `Connection: close`, then `Content-Length` and
`Content-Type` (200) or `Content-Type` alone (404, 405, 501), every line ended
by CRLF, then one empty line, then the body the response function wrote (the
file, one of the three HTML texts, or nothing).  A client that reads lines up
to the first empty line reads exactly these header lines and is left with
exactly that body. -/
theorem response_begins_with_common_header_block (sys : Sys) (req : HTTPreq)
    (docroot : List Nat) (hdate : ∀ c ∈ sys.date, c ≠ 10) :
    ∃ status extra body,
      (status = bytes "200 OK" ∨ status = bytes "404 Not Found"
        ∨ status = bytes "405 Method Not Allowed" ∨ status = bytes "501 Not Implemented")
      ∧ ((∃ size, extra = [bytes "Content-Length: " ++ fmt_ld size,
                           bytes "Content-Type: text/plain"])
          ∨ extra = [bytes "Content-Type: text/html"]
          ∨ extra = [bytes "Content-type: text/html"])
      ∧ (respond_to sys req docroot).out
          = (bytes "HTTP/1." ++ fmt_ld HTTP_MINOR_VERSION ++ bytes " " ++ status ++ bytes "\r\n")
            ++ (bytes "Date: " ++ sys.date ++ bytes "\r\n")
            ++ bytes "Server: sysproHTTP/1.0\r\n"
            ++ bytes "Connection: close\r\n"
            ++ crlf_lines extra
            ++ bytes "\r\n"
            ++ body
      ∧ read_head [] [] (respond_to sys req docroot).out
          = some ([bytes "HTTP/1.0 " ++ status, bytes "Date: " ++ sys.date,
                   bytes "Server: sysproHTTP/1.0", bytes "Connection: close"] ++ extra, body)
      ∧ (body = [] ∨ body = html_404 ∨ body = html_405 req.method
          ∨ body = html_501 req.method
          ∨ sys.open_read (build_filepath docroot req.path) = some body) := by
  obtain ⟨status, extra, body, hout, hcase, hread, _⟩ :=
    respond_to_read_head sys req docroot hdate
  have h0 : bytes "HTTP/1." ++ fmt_ld HTTP_MINOR_VERSION ++ bytes " " = bytes "HTTP/1.0 " := by
    decide
  have h1 : bytes "Server: sysproHTTP/1.0\r\n"
      = bytes "Server: sysproHTTP/1.0" ++ bytes "\r\n" := by decide
  have h2 : bytes "Connection: close\r\n" = bytes "Connection: close" ++ bytes "\r\n" := by
    decide
  refine ⟨status, extra, body, ?_, ?_, ?_, hread, ?_⟩
  · rcases hcase with h | h | h | h
    · exact Or.inl h.2.1
    · exact Or.inr (Or.inl h.2.1)
    · exact Or.inr (Or.inr (Or.inl h.2.1))
    · exact Or.inr (Or.inr (Or.inr h.2.2.2.1))
  · rcases hcase with h | h | h | h
    · exact Or.inl ⟨_, h.2.2.1⟩
    · exact Or.inr (Or.inl h.2.2.1)
    · exact Or.inr (Or.inl h.2.2.1)
    · exact Or.inr (Or.inr h.2.2.2.2.1)
  · rw [hout, h0, h1, h2, crlf_lines_append]
    simp only [common_lines, crlf_lines, List.append_assoc, List.append_nil]
  · rcases hcase with h | h | h | h
    · rcases h.2.2.2.2 with hb | hb
      · exact Or.inl hb
      · exact Or.inr (Or.inr (Or.inr (Or.inr hb)))
    · rcases h.2.2.2.2 with hb | hb
      · exact Or.inl hb
      · exact Or.inr (Or.inl hb)
    · exact Or.inr (Or.inr (Or.inl h.2.2.2))
    · exact Or.inr (Or.inr (Or.inr (Or.inl h.2.2.2.2.2)))

/-- C11, at GET for the five-byte file of the sample world; the lines a client
reads back are shown for that output. -/
theorem response_begins_with_common_header_block_witness :
    (∀ c ∈ demo_sys.date, c ≠ 10)
    ∧ (∃ status extra body,
        read_head [] [] (respond_to demo_sys (demo_req "GET" "/a.txt") (bytes "/srv")).out
          = some ([bytes "HTTP/1.0 " ++ status, bytes "Date: " ++ demo_sys.date,
                   bytes "Server: sysproHTTP/1.0", bytes "Connection: close"] ++ extra, body))
    ∧ read_head [] [] (respond_to demo_sys (demo_req "GET" "/a.txt") (bytes "/srv")).out
        = some ([bytes "HTTP/1.0 200 OK", bytes "Date: Thu, 01 Jan 1970 00:00:00 GMT",
                 bytes "Server: sysproHTTP/1.0", bytes "Connection: close",
                 bytes "Content-Length: 5", bytes "Content-Type: text/plain"],
                bytes "hello") :=
  have h := response_begins_with_common_header_block demo_sys (demo_req "GET" "/a.txt")
    (bytes "/srv") (by decide)
  ⟨by decide,
   h.elim fun status h2 => h2.elim fun extra h3 => h3.elim fun body h4 =>
     ⟨status, extra, body, h4.2.2.2.1⟩,
   by decide⟩

/-- C18. Let the date text hold no newline.  The first line of every output of
`respond_to` is `HTTP/1.0` followed by one of `200 OK`, `404 Not Found`,
`405 Method Not Allowed`, `501 Not Implemented`; it is 200 or 404 exactly when
the method is GET or HEAD, 405 exactly when the method is POST, and 501 only
when the method is not HEAD.  For the method HEAD the output is header lines
and the empty line and nothing else: a client that reads up to the first empty
line is left with no byte. -/
theorem status_follows_method (sys : Sys) (req : HTTPreq) (docroot : List Nat)
    (hdate : ∀ c ∈ sys.date, c ≠ 10) :
    (status_line (respond_to sys req docroot).out = bytes "HTTP/1.0 200 OK"
      ∨ status_line (respond_to sys req docroot).out = bytes "HTTP/1.0 404 Not Found"
      ∨ status_line (respond_to sys req docroot).out = bytes "HTTP/1.0 405 Method Not Allowed"
      ∨ status_line (respond_to sys req docroot).out = bytes "HTTP/1.0 501 Not Implemented")
    ∧ ((status_line (respond_to sys req docroot).out = bytes "HTTP/1.0 200 OK"
          ∨ status_line (respond_to sys req docroot).out = bytes "HTTP/1.0 404 Not Found")
        ↔ (req.method = bytes "GET" ∨ req.method = bytes "HEAD"))
    ∧ (status_line (respond_to sys req docroot).out = bytes "HTTP/1.0 405 Method Not Allowed"
        ↔ req.method = bytes "POST")
    ∧ (status_line (respond_to sys req docroot).out = bytes "HTTP/1.0 501 Not Implemented"
        → req.method ≠ bytes "HEAD")
    ∧ (req.method = bytes "HEAD" →
        ∃ lines, read_head [] [] (respond_to sys req docroot).out = some (lines, [])
          ∧ (respond_to sys req docroot).out = crlf_lines lines ++ bytes "\r\n") := by
  obtain ⟨status, extra, body, hout, hcase, hread, hsl⟩ :=
    respond_to_read_head sys req docroot hdate
  have e200 : bytes "HTTP/1.0 " ++ bytes "200 OK" = bytes "HTTP/1.0 200 OK" := by decide
  have e404 : bytes "HTTP/1.0 " ++ bytes "404 Not Found" = bytes "HTTP/1.0 404 Not Found" := by
    decide
  have e405 : bytes "HTTP/1.0 " ++ bytes "405 Method Not Allowed"
      = bytes "HTTP/1.0 405 Method Not Allowed" := by decide
  have e501 : bytes "HTTP/1.0 " ++ bytes "501 Not Implemented"
      = bytes "HTTP/1.0 501 Not Implemented" := by decide
  have hfile : req.method = bytes "GET" ∨ req.method = bytes "HEAD" →
      req.method ≠ bytes "POST" := by
    intro h hp
    rcases h with h | h <;> rw [h] at hp <;> exact absurd hp (by decide)
  have hheadbody : body = [] → req.method = bytes "HEAD" →
      ∃ lines, read_head [] [] (respond_to sys req docroot).out = some (lines, [])
        ∧ (respond_to sys req docroot).out = crlf_lines lines ++ bytes "\r\n" := by
    intro hb _
    refine ⟨common_lines sys status ++ extra, ?_, ?_⟩
    · rw [hread, hb]
    · rw [hout, hb, List.append_nil]
  rw [hsl]
  rcases hcase with h | h | h | h
  · rw [h.2.1, e200]
    refine ⟨Or.inl rfl, ⟨fun _ => h.1, fun _ => Or.inl rfl⟩, ?_, ?_, ?_⟩
    · exact ⟨fun hx => absurd hx (by decide), fun hx => absurd hx (hfile h.1)⟩
    · exact fun hx => absurd hx (by decide)
    · exact fun hh => hheadbody (h.2.2.2.1 hh) hh
  · rw [h.2.1, e404]
    refine ⟨Or.inr (Or.inl rfl), ⟨fun _ => h.1, fun _ => Or.inr rfl⟩, ?_, ?_, ?_⟩
    · exact ⟨fun hx => absurd hx (by decide), fun hx => absurd hx (hfile h.1)⟩
    · exact fun hx => absurd hx (by decide)
    · exact fun hh => hheadbody (h.2.2.2.1 hh) hh
  · rw [h.2.1, e405]
    have hG : req.method ≠ bytes "GET" := by rw [h.1]; decide
    have hH : req.method ≠ bytes "HEAD" := by rw [h.1]; decide
    refine ⟨Or.inr (Or.inr (Or.inl rfl)), ⟨?_, ?_⟩, ⟨fun _ => h.1, fun _ => rfl⟩, ?_, ?_⟩
    · intro hx
      rcases hx with hx | hx <;> exact absurd hx (by decide)
    · intro hx
      rcases hx with hx | hx
      · exact absurd hx hG
      · exact absurd hx hH
    · exact fun hx => absurd hx (by decide)
    · exact fun hh => absurd hh hH
  · rw [h.2.2.2.1, e501]
    refine ⟨Or.inr (Or.inr (Or.inr rfl)), ⟨?_, ?_⟩, ?_, fun _ => h.2.1, ?_⟩
    · intro hx
      rcases hx with hx | hx <;> exact absurd hx (by decide)
    · intro hx
      rcases hx with hx | hx
      · exact absurd hx h.1
      · exact absurd hx h.2.1
    · exact ⟨fun hx => absurd hx (by decide), fun hx => absurd hx h.2.2.1⟩
    · exact fun hh => absurd hh h.2.1

/-- C18, at HEAD for the five-byte file and for a missing path of the sample
world: status 200 and 404, and nothing after the empty line. -/
theorem status_follows_method_witness :
    (∀ c ∈ demo_sys.date, c ≠ 10)
    ∧ (∃ lines, read_head [] []
          (respond_to demo_sys (demo_req "HEAD" "/a.txt") (bytes "/srv")).out = some (lines, []))
    ∧ status_line (respond_to demo_sys (demo_req "HEAD" "/a.txt") (bytes "/srv")).out
        = bytes "HTTP/1.0 200 OK"
    ∧ status_line (respond_to demo_sys (demo_req "HEAD" "/nothing") (bytes "/srv")).out
        = bytes "HTTP/1.0 404 Not Found" :=
  have h := status_follows_method demo_sys (demo_req "HEAD" "/a.txt") (bytes "/srv")
    (by decide)
  ⟨by decide,
   (h.2.2.2.2 (by decide)).elim fun lines hl => ⟨lines, hl.1⟩,
   by decide, by decide⟩

end Httpserver2
